import Mathlib

/-!
# Verification of the tldreply-bot summarization core

A shallow embedding, in Lean 4, of the message-selection, filtering and
hierarchical-summarization pipeline of the tldreply-bot repository
(`src/services/gemini.ts`, `src/bot/bot.ts`, the `Commands` class and the
`Database` access layer), together with proofs settling the frozen claims
about it.

Modelling conventions:
* JavaScript strings are Lean `String`s; all string manipulation is done on
  `String.data` (`List Char`), mirroring the JS operations
  (`trim`, `toLowerCase`, `split`, `slice`, `substring`, `parseInt`, ...).
* JS `null`/`undefined` becomes `Option`; JS truthiness tests on strings,
  numbers and arrays are modelled explicitly (`""`, `0` falsy; arrays truthy).
* The remote generation capability (`ai.models.generateContent`) is an oracle
  `Nat → GenResult` indexed by the sequence number of the call; the model
  threads a `GenLog` recording how many calls were issued and which backoff
  delays were slept.
* The database is modelled as in-memory lists with the SQL semantics of the
  statements in `database.ts` (`ON CONFLICT DO NOTHING` / `DO UPDATE`).
* `async`/`await` sequencing is direct (the code awaits every call site, so
  evaluation order is the textual order).
-/

/-! ## JavaScript string primitives (on `List Char`) -/

/-- `parseInt`-style digit run to a natural number (base 10). -/
def digitsToNat (l : List Char) : Nat :=
  l.foldl (fun acc c => acc * 10 + (c.toNat - 48)) 0

/-- Split a character list at whitespace, keeping empty runs
(the semantics of `String.prototype.split(/\s/)` per separator char). -/
def splitOnWs (l : List Char) : List (List Char) :=
  match l with
  | [] => [[]]
  | c :: rest =>
    let r := splitOnWs rest
    if c.isWhitespace then [] :: r
    else match r with
      | [] => [[c]]
      | w :: ws => (c :: w) :: ws

/-- The maximal non-whitespace runs of a character list. -/
def wordsOf (l : List Char) : List (List Char) :=
  (splitOnWs l).filter (fun w => !w.isEmpty)

/-- JS `String.prototype.trim` (leading and trailing whitespace removed). -/
def jsTrimL (l : List Char) : List Char :=
  ((l.dropWhile Char.isWhitespace).reverse.dropWhile Char.isWhitespace).reverse

def jsTrim (s : String) : String := ⟨jsTrimL s.data⟩

/-- JS `String.prototype.toLowerCase` (ASCII letters; the repository only
compares against ASCII keywords). -/
def jsToLower (s : String) : String := ⟨s.data.map Char.toLower⟩

/-- JS `parseInt(s, 10)`: skip leading whitespace, optional sign, then the
maximal leading digit run; `none` models `NaN`. -/
def jsDigits (l : List Char) : Option Nat :=
  let ds := l.takeWhile Char.isDigit
  if ds.isEmpty then none else some (digitsToNat ds)

def jsParseIntL (l : List Char) : Option Int :=
  match l.dropWhile Char.isWhitespace with
  | [] => none
  | c :: rest =>
    if c = '-' then (jsDigits rest).map (fun n => -(n : Int))
    else if c = '+' then (jsDigits rest).map (fun n => (n : Int))
    else (jsDigits (c :: rest)).map (fun n => (n : Int))

def jsParseInt (s : String) : Option Int := jsParseIntL s.data

/-- JS `a || b` for a nullable string `a`: `null`/`undefined`/`""` are falsy. -/
def jsOrStr (a : Option String) (b : String) : String :=
  match a with
  | some s => if s = "" then b else s
  | none => b

/-- Truthiness of a nullable JS number (`0`, `null`, `undefined` falsy). -/
def numTruthy (a : Option Int) : Bool :=
  match a with
  | some v => v != 0
  | none => false

/-- `content?.startsWith('/')` on a nullable string. -/
def startsWithSlash (content : Option String) : Bool :=
  match content with
  | some c => c.data.head? == some '/'
  | none => false

/-- Last character test (`String.prototype.endsWith` with a one-char suffix). -/
def endsWithChar (l : List Char) (c : Char) : Bool :=
  l.getLast? == some c

/-- JS `String.prototype.substring(0, n)` / `slice(0, n)`. -/
def jsTake (s : String) (n : Nat) : String := ⟨s.data.take n⟩

/-! ## Timeframe/Count parser (`Commands.isCountBased`, `Commands.parseCount`,
`Commands.parseTimeframe` in the Commands class) -/

/-- `isCountBased`: `/^\d+$/.test(input.toLowerCase().trim())`. -/
def isCountBased (input : String) : Bool :=
  let normalized := jsTrimL (jsToLower input).data
  !normalized.isEmpty && normalized.all Char.isDigit

/-- `parseCount`: `parseInt(input.trim(), 10)`, defaulting to 100 when `NaN`
or non-positive, capped at 10000. -/
def parseCount (input : String) : Int :=
  match jsParseInt (jsTrim input) with
  | none => 100
  | some value => if value ≤ 0 then 100 else min value 10000

/-- `timeframe.toLowerCase().trim().replace(/\s+/g, ' ')`. -/
def normalizeTf (s : String) : List Char :=
  List.intercalate [' '] (wordsOf (jsToLower s).data)

inductive TimeUnit where
  | hour | day | week
deriving DecidableEq, Repr

/-- The three anchored regexes `^(\d+)\s+(day|days)$`, `^(\d+)\s+(hour|hours|h)$`,
`^(\d+)\s+(week|weeks)$` applied to the (space-collapsed) normalized input. -/
def spacedMatch (n : List Char) : Option (Nat × TimeUnit) :=
  match wordsOf n with
  | [a, b] =>
    if !a.isEmpty && a.all Char.isDigit then
      if b = "day".data ∨ b = "days".data then some (digitsToNat a, TimeUnit.day)
      else if b = "hour".data ∨ b = "hours".data ∨ b = "h".data then
        some (digitsToNat a, TimeUnit.hour)
      else if b = "week".data ∨ b = "weeks".data then some (digitsToNat a, TimeUnit.week)
      else none
    else none
  | _ => none

/-- The `hours` value computed by `parseTimeframe` (every branch of the source
ends in `return new Date(now - hours * 60 * 60 * 1000)`, so the function
factors through this value). `MAX_HOURS = 168`. -/
def tfHoursCore (n : List Char) : Nat :=
  match spacedMatch n with
  | some (v, TimeUnit.day) => (min v 7) * 24
  | some (v, TimeUnit.hour) => min v 168
  | some (v, TimeUnit.week) => (min v 1) * 168
  | none =>
    if endsWithChar n 'h' then
      match jsParseIntL n.dropLast with
      | none => 1
      | some value => if value ≤ 0 then 1 else min value.toNat 168
    else if endsWithChar n 'd' ∨ n = "day".data then
      match (if n = "day".data then some (1 : Int) else jsParseIntL n.dropLast) with
      | none => 24
      | some value => if value ≤ 0 then 24 else (min value.toNat 7) * 24
    else if n = "week".data then 168
    else
      match jsParseIntL n with
      | some value => if 0 < value then min value.toNat 168 else 1
      | none => 1

def tfHours (s : String) : Nat := tfHoursCore (normalizeTf s)

/-- `parseTimeframe`: the returned cutoff instant in epoch milliseconds. -/
def parseTimeframe (timeframe : String) (now : Int) : Int :=
  now - (tfHours timeframe : Int) * (60 * 60 * 1000)

/-! ## Data rows and the message filter -/

/-- A row of the `messages` table (timestamps in epoch milliseconds). -/
structure DbMsg where
  telegramChatId : Int
  messageId : Int
  userId : Option Int
  username : Option String
  firstName : Option String
  content : Option String
  timestamp : Int
deriving DecidableEq, Repr

/-- A row of the `group_settings` table. -/
structure GroupSettings where
  telegramChatId : Int
  summaryStyle : Option String
  customPrompt : Option String
  excludeBotMessages : Bool
  excludeCommands : Bool
  excludedUserIds : Option (List Int)
  scheduledEnabled : Bool
  scheduleFrequency : Option String
  scheduleTime : Option String
  lastScheduledSummary : Option Int
deriving DecidableEq, Repr

/-- A row of the `groups` table (only the fields the pipeline reads). -/
structure GroupRow where
  geminiApiKeyEncrypted : Option String
  enabled : Bool
deriving DecidableEq, Repr

/-- The predicate of `Commands.filterMessages` (true = keep). -/
def keepMessage (settings : GroupSettings) (msg : DbMsg) : Bool :=
  !(settings.excludeBotMessages && numTruthy msg.userId && msg.username == some "bot") &&
  !(settings.excludeCommands && startsWithSlash msg.content) &&
  !(settings.excludedUserIds.isSome && numTruthy msg.userId &&
      (settings.excludedUserIds.getD []).contains (msg.userId.getD 0))

/-- `Commands.filterMessages`. -/
def filterMessages (messages : List DbMsg) (settings : GroupSettings) : List DbMsg :=
  messages.filter (keepMessage settings)

/-! ## GeminiService (`src/services/gemini.ts`) -/

/-- The message shape `GeminiService.summarizeMessages` receives
(the `timestamp` field is never read by the service). -/
structure Msg where
  username : Option String
  firstName : Option String
  content : String
  timestamp : Int
deriving DecidableEq, Repr

instance : DecidableEq (Except String String) := fun a b =>
  match a, b with
  | Except.ok x, Except.ok y =>
    if h : x = y then isTrue (by rw [h]) else isFalse (fun hh => h (Except.ok.inj hh))
  | Except.ok _, Except.error _ => isFalse (fun hh => Except.noConfusion hh)
  | Except.error _, Except.ok _ => isFalse (fun hh => Except.noConfusion hh)
  | Except.error x, Except.error y =>
    if h : x = y then isTrue (by rw [h]) else isFalse (fun hh => h (Except.error.inj hh))

/-- Outcome of one `ai.models.generateContent` call: success with the
(nullable) `response.text`, or a thrown error with its message. -/
inductive GenResult where
  | ok (text : Option String)
  | err (msg : String)
deriving DecidableEq, Repr

/-- Observable interaction with the generation capability: how many calls
were issued so far and which backoff delays (ms) were slept, in order. -/
structure GenLog where
  calls : Nat
  delays : List Nat
deriving DecidableEq, Repr

def genLog0 : GenLog := ⟨0, []⟩

/-- Issue one `generateContent` call against the oracle `g` (the oracle is
indexed by the call sequence number; the prompt does not influence it). -/
def callGen (g : Nat → GenResult) (log : GenLog) (_prompt : String) : GenResult × GenLog :=
  (g log.calls, { log with calls := log.calls + 1 })

/-- The `options` argument of `summarizeMessages` (absent fields = `none`). -/
structure SummarizeOptions where
  customPrompt : Option String
  summaryStyle : Option String
deriving DecidableEq, Repr

/-- Call sites that omit `options` altogether. -/
def noOptions : SummarizeOptions := ⟨none, none⟩

/-- `GeminiService.getStyleInstructions`. -/
def getStyleInstructions (style : String) : String :=
  if style = "detailed" then
    "Provide a detailed, comprehensive summary. Include all important points, context, and nuances. Keep the summary under 500 words."
  else if style = "brief" then
    "Provide a very brief summary. Focus only on the most critical points. Keep the summary under 150 words."
  else if style = "bullet" then
    "Provide a summary using bullet points. Each bullet should be concise and clear. Keep the summary under 300 words."
  else if style = "timeline" then
    "Provide a chronological summary, organizing events and discussions in the order they occurred. Keep the summary under 400 words."
  else
    "Provide a concise, well-structured summary. Keep the summary under 300 words and use bullet points if helpful."

/-- `messages.map((msg, idx) => ...).join('\n\n')`. -/
def formatMessages (messages : List Msg) : String :=
  String.intercalate "\n\n"
    (messages.enum.map (fun p =>
      toString (p.1 + 1) ++ ". [" ++ jsOrStr p.2.username (jsOrStr p.2.firstName "Unknown")
        ++ "]: " ++ p.2.content))

/-- JS `String.prototype.replace` with a string pattern: first occurrence only. -/
def replaceFirstL (pat repl : List Char) : List Char → List Char
  | [] => if pat.isEmpty then repl else []
  | c :: rest =>
    if pat.isPrefixOf (c :: rest) then repl ++ (c :: rest).drop pat.length
    else c :: replaceFirstL pat repl rest

def replaceFirst (s pat repl : String) : String := ⟨replaceFirstL pat.data repl.data s.data⟩

/-- Substring containment (JS `String.prototype.includes`). -/
def containsSub (pat : List Char) : List Char → Bool
  | [] => pat.isEmpty
  | c :: rest => pat.isPrefixOf (c :: rest) || containsSub pat rest

def strIncludes (hay pat : String) : Bool := containsSub pat.data hay.data

/-- The per-chunk prompt of `summarizeChunk`: either the custom prompt with
the messages placeholder substituted, or the style-instruction template. -/
def buildChunkPrompt (messages : List Msg) (options : SummarizeOptions) : String :=
  let formattedMessages := formatMessages messages
  match options.customPrompt with
  | some cp =>
    if cp = "" then defaultChunkPrompt (jsOrStr options.summaryStyle "default") formattedMessages
    else replaceFirst cp "\x7b\x7bmessages\x7d\x7d" formattedMessages
  | none => defaultChunkPrompt (jsOrStr options.summaryStyle "default") formattedMessages
where
  defaultChunkPrompt (style formattedMessages : String) : String :=
    "You are a helpful assistant that summarizes Telegram group chat conversations. \n    "
      ++ getStyleInstructions style
      ++ "\n    \n    Focus on:\n    - Main topics discussed\n    - Key decisions or conclusions\n    - Important announcements\n    - Ongoing questions or unresolved issues\n    - Skip greetings, emojis-only messages, and spam\n    \n    IMPORTANT: Format your response using markdown:\n    - Use **bold** for important topics or section headers\n    - Use bullet points (* item) for lists\n    - Keep the summary clear and organized\n    \n    Conversation:\n    "
      ++ formattedMessages ++ "\n    \n    Summary:"

/-- The retry loop of `summarizeChunk`: `maxRetries = 3`, `baseDelay = 1000`,
delay `baseDelay * 2 ^ attempt` between attempts. The first argument counts
the remaining iterations of `for (let attempt = 0; attempt < maxRetries; ...)`
(`0 < remaining` is `attempt < maxRetries - 1`); the exhausted case is the
unreachable trailing `throw` of the source. -/
def summarizeChunkGo (g : Nat → GenResult) (prompt : String) :
    Nat → Nat → GenLog → Except String String × GenLog
  | 0, _, log => (Except.error "Failed to generate summary after multiple retries.", log)
  | remaining + 1, attempt, log =>
    match callGen g log prompt with
    | (GenResult.ok t, log') =>
      (Except.ok (jsOrStr t "Generated summary (no text returned)"), log')
    | (GenResult.err e, log') =>
      if 0 < remaining then
        summarizeChunkGo g prompt remaining (attempt + 1)
          { log' with delays := log'.delays ++ [1000 * 2 ^ attempt] }
      else (Except.error e, log')

/-- `GeminiService.summarizeChunk` (`maxRetries = 3`). -/
def summarizeChunk (g : Nat → GenResult) (messages : List Msg) (options : SummarizeOptions)
    (log : GenLog) : Except String String × GenLog :=
  if messages.isEmpty then (Except.ok "No messages in this chunk.", log)
  else summarizeChunkGo g (buildChunkPrompt messages options) 3 0 log

/-- The chunk split of `summarizeLargeMessageSet`
(`for (let i = 0; i < messages.length; i += chunkSize) chunks.push(messages.slice(i, i + chunkSize))`),
written with an explicit fuel argument (the list length bounds the number of
iterations) so that it is structurally recursive. -/
def chunksOfAux (chunkSize : Nat) : Nat → List α → List (List α)
  | _, [] => []
  | 0, _ :: _ => []
  | fuel + 1, c :: rest =>
    (c :: rest).take chunkSize :: chunksOfAux chunkSize fuel ((c :: rest).drop chunkSize)

def chunksOf (chunkSize : Nat) (l : List α) : List (List α) :=
  chunksOfAux chunkSize l.length l

/-- `[Chunk i+1/total - len messages]:\n` label prefixed to each chunk summary. -/
def chunkLabel (i total len : Nat) (s : String) : String :=
  "[Chunk " ++ toString (i + 1) ++ "/" ++ toString total ++ " - " ++ toString len
    ++ " messages]:\n" ++ s

/-- The sequential per-chunk loop of `summarizeLargeMessageSet`; a chunk
failure aborts the loop and propagates. -/
def summarizeChunksLoop (g : Nat → GenResult) (options : SummarizeOptions) (total : Nat) :
    List (List Msg) → Nat → GenLog → Except String (List String) × GenLog
  | [], _, log => (Except.ok [], log)
  | chunk :: rest, i, log =>
    match summarizeChunk g chunk options log with
    | (Except.ok s, log') =>
      (match summarizeChunksLoop g options total rest (i + 1) log' with
       | (Except.ok ss, log'') => (Except.ok (chunkLabel i total chunk.length s :: ss), log'')
       | (Except.error e, log'') => (Except.error e, log''))
    | (Except.error e, log') => (Except.error e, log')

/-- The merge prompt of `summarizeLargeMessageSet`. -/
def buildMergePrompt (totalMessages chunkCount : Nat) (styleInstructions mergedSummaries : String) : String :=
  "You are a helpful assistant that creates a comprehensive summary from multiple partial summaries of a Telegram group chat.\n\n"
    ++ styleInstructions
    ++ "\n\nYou have received " ++ toString chunkCount ++ " partial summaries covering "
    ++ toString totalMessages ++ " total messages. Please create a unified, coherent summary that:\n- Combines all the important information from the partial summaries\n- Removes any redundancy or duplication\n- Maintains chronological order where relevant\n- Highlights the most important topics, decisions, and announcements\n- Preserves the key points from each partial summary\n\nPartial Summaries:\n"
    ++ mergedSummaries ++ "\n\nUnified Summary:"

/-- `GeminiService.summarizeLargeMessageSet`: split into chunks, summarize
each, then merge once; a merge failure falls back to the concatenation. -/
def summarizeLargeMessageSet (g : Nat → GenResult) (messages : List Msg)
    (options : SummarizeOptions) (chunkSize : Nat) (log : GenLog) :
    Except String String × GenLog :=
  let totalMessages := messages.length
  let chunks := chunksOf chunkSize messages
  match summarizeChunksLoop g options chunks.length chunks 0 log with
  | (Except.error e, log') => (Except.error e, log')
  | (Except.ok chunkSummaries, log') =>
    match chunkSummaries with
    | [single] => (Except.ok single, log')
    | _ =>
      let mergedSummaries := String.intercalate "\n\n---\n\n" chunkSummaries
      let mergePrompt := buildMergePrompt totalMessages chunks.length
        (getStyleInstructions (jsOrStr options.summaryStyle "default")) mergedSummaries
      match callGen g log' mergePrompt with
      | (GenResult.ok t, log'') =>
        (Except.ok (jsOrStr t ("Summary of " ++ toString totalMessages
          ++ " messages (processed in " ++ toString chunks.length ++ " chunks)")), log'')
      | (GenResult.err _, log'') =>
        (Except.ok ("Summary of " ++ toString totalMessages ++ " messages:\n\n"
          ++ mergedSummaries), log'')

/-- The error classification of the single-chunk path of `summarizeMessages`
(`error.message || 'Unknown error'`, substring tests, unrecognized re-thrown). -/
def classifyGenError (err : String) : String :=
  let errorMessage := if err = "" then "Unknown error" else err
  if strIncludes errorMessage "API_KEY_INVALID" || strIncludes errorMessage "401"
      || strIncludes errorMessage "Unauthorized" then
    "Invalid API key. Please check your Gemini API key and ensure it\x27s correct. You can update it using /update_api_key."
  else if strIncludes errorMessage "PERMISSION_DENIED" || strIncludes errorMessage "403" then
    "Permission denied. Your API key may not have access to the Gemini API. Please check your API key permissions."
  else if strIncludes errorMessage "QUOTA_EXCEEDED" || strIncludes errorMessage "429" then
    "API quota exceeded. Your Gemini API key has reached its rate limit or quota. Please try again later or check your API usage."
  else if strIncludes errorMessage "timeout" || strIncludes errorMessage "TIMEOUT" then
    "Request timeout. The API request took too long. Please try again."
  else if strIncludes errorMessage "network" || strIncludes errorMessage "ECONNREFUSED"
      || strIncludes errorMessage "ENOTFOUND" then
    "Network error. Could not connect to the Gemini API. Please check your internet connection and try again."
  else err

/-- `GeminiService.summarizeMessages`: sentinel for the empty set, the
hierarchical path for more than 1000 messages (`CHUNK_SIZE = 900`, outside
the try/catch), and the classified single-chunk path otherwise. -/
def summarizeMessages (g : Nat → GenResult) (messages : List Msg)
    (options : SummarizeOptions) (log : GenLog) : Except String String × GenLog :=
  if messages.isEmpty then
    (Except.ok "No messages found in the specified time range.", log)
  else if messages.length > 1000 then
    summarizeLargeMessageSet g messages options 900 log
  else
    match summarizeChunk g messages options log with
    | (Except.ok s, log') => (Except.ok s, log')
    | (Except.error e, log') => (Except.error (classifyGenError e), log')

/-! ## Scheduler / lifecycle loop (`src/bot/bot.ts`) -/

/-- Truthiness of a nullable JS string (`null`/`""` falsy), as used for
`group.gemini_api_key_encrypted`. -/
def jsStrTruthy (o : Option String) : Bool :=
  match o with
  | some s => s != ""
  | none => false

/-- One call of `gemini.summarizeMessages(...)` as issued by a scheduler
path, recording the group state read at the call site and the message list
handed to the Chunked Summarizer. -/
structure Invocation where
  chatId : Int
  apiKey : Option String
  enabled : Bool
  messages : List Msg
deriving DecidableEq, Repr

/-- The conversion from a `messages` row to the summarizer interface shape
(`{ username, firstName, content, timestamp }`). -/
def toGeminiMsg (m : DbMsg) : Msg :=
  ⟨m.username, m.firstName, m.content.getD "", m.timestamp⟩

/-- The inline filter of `generateScheduledSummary`
(note: unlike `Commands.filterMessages` it checks `msg.username === 'bot'`
without a `msg.user_id` guard). -/
def schedKeep (settings : GroupSettings) (msg : DbMsg) : Bool :=
  !(settings.excludeBotMessages && msg.username == some "bot") &&
  !(settings.excludeCommands && startsWithSlash msg.content) &&
  !(settings.excludedUserIds.isSome && numTruthy msg.userId &&
      (settings.excludedUserIds.getD []).contains (msg.userId.getD 0))

/-- Generic single-character split (`String.prototype.split(':')`). -/
def splitOnP (p : Char → Bool) (l : List Char) : List (List Char) :=
  match l with
  | [] => [[]]
  | c :: rest =>
    let r := splitOnP p rest
    if p c then [] :: r
    else match r with
      | [] => [[c]]
      | w :: ws => (c :: w) :: ws

/-- JS `Number(s)` restricted to the non-negative integers the schedule-time
strings contain (`""` is 0, non-numeric text is `NaN = none`). -/
def jsNumberNat (s : String) : Option Nat :=
  let t := jsTrimL s.data
  if t.isEmpty then some 0
  else if t.all Char.isDigit then some (digitsToNat t) else none

/-- `(settings.schedule_time || '09:00:00').split(':').map(Number)`
destructured into hour and minute (`none` = `NaN` / missing part). -/
def scheduleHM (scheduleTime : Option String) : Option Nat × Option Nat :=
  let parts := (splitOnP (fun c => c = ':') (jsOrStr scheduleTime "09:00:00").data).map
    (fun w => jsNumberNat ⟨w⟩)
  ((parts.getD 0 none), (parts.getD 1 none))

/-- The world visible to `checkAndRunScheduledSummaries`: the configuration
store, the settings rows with `scheduled_enabled = true`, the message
repository (`getMessagesSinceTimestamp`) and the decomposed current UTC time. -/
structure SchedWorld where
  groups : Int → Option GroupRow
  schedGroups : List GroupSettings
  messagesSince : Int → Int → Nat → List DbMsg
  nowMs : Int
  curHour : Nat
  curMinute : Nat
  curDay : Nat

/-- `TLDRBot.generateScheduledSummary`, reduced to the summarizer invocations
it performs (zero or one). -/
def generateScheduledSummary (w : SchedWorld) (chatId : Int) (settings : GroupSettings) :
    List Invocation :=
  match w.groups chatId with
  | none => []
  | some group =>
    if !(jsStrTruthy group.geminiApiKeyEncrypted) then []
    else
      let hoursAgo : Int := if settings.scheduleFrequency == some "weekly" then 168 else 24
      let since := w.nowMs - hoursAgo * (60 * 60 * 1000)
      let messages := w.messagesSince chatId since 1000
      if messages.isEmpty then []
      else
        let filteredMessages := messages.filter (schedKeep settings)
        if filteredMessages.isEmpty then []
        else [⟨chatId, group.geminiApiKeyEncrypted, group.enabled, filteredMessages.map toGeminiMsg⟩]

/-- The per-settings body of the loop in `TLDRBot.checkAndRunScheduledSummaries`. -/
def schedOne (w : SchedWorld) (settings : GroupSettings) : List Invocation :=
  match w.groups settings.telegramChatId with
  | none => []
  | some group =>
    if !(jsStrTruthy group.geminiApiKeyEncrypted) || !group.enabled then []
    else
      match scheduleHM settings.scheduleTime with
      | (some scheduleHour, some scheduleMinute) =>
        let isTimeToRun := w.curHour == scheduleHour && w.curMinute ≥ scheduleMinute
          && w.curMinute < scheduleMinute + 5
        if !isTimeToRun then []
        else if settings.scheduleFrequency == some "weekly" && w.curDay != 0 then []
        else
          match settings.lastScheduledSummary with
          | some lastRun =>
            if w.nowMs - lastRun < 23 * (60 * 60 * 1000) then []
            else generateScheduledSummary w settings.telegramChatId settings
          | none => generateScheduledSummary w settings.telegramChatId settings
      | _ => []

/-- `TLDRBot.checkAndRunScheduledSummaries`, reduced to the list of
summarizer invocations it performs across all scheduled groups. -/
def checkAndRunScheduledSummaries (w : SchedWorld) : List Invocation :=
  w.schedGroups.foldl (fun acc settings => acc ++ schedOne w settings) []

/-! ## Eviction with pre-deletion summarization
(`TLDRBot.summarizeAndCleanupOldMessages` and `Database.insertSummary`) -/

/-- A row of the `summaries` table. -/
structure SummaryRow where
  telegramChatId : Int
  summaryText : String
  messageCount : Nat
  periodStart : Int
  periodEnd : Int
deriving DecidableEq, Repr

/-- The tables touched by the eviction pass. -/
structure EvictionDb where
  messages : List DbMsg
  summaries : List SummaryRow
  settingsRows : List Int
deriving DecidableEq, Repr

/-- `Database.insertSummary`:
`INSERT ... ON CONFLICT (telegram_chat_id, period_start, period_end) DO NOTHING`. -/
def insertSummary (row : SummaryRow) (summaries : List SummaryRow) : List SummaryRow :=
  if summaries.any (fun r => r.telegramChatId == row.telegramChatId &&
      r.periodStart == row.periodStart && r.periodEnd == row.periodEnd)
  then summaries
  else summaries ++ [row]

/-- `Database.createGroupSettings`: `INSERT ... ON CONFLICT DO NOTHING`. -/
def createGroupSettings (chatId : Int) (rows : List Int) : List Int :=
  if rows.contains chatId then rows else rows ++ [chatId]

/-- `msg.content && msg.content.trim().length > 0`. -/
def contentNonblank (m : DbMsg) : Bool :=
  match m.content with
  | some c => !(jsTrimL c.data).isEmpty
  | none => false

/-- The iteration order of `messagesByChat` (a JS `Map` keyed by chat id in
first-appearance order). -/
def chatIdsInOrder (ms : List DbMsg) : List Int :=
  ms.foldl (fun acc m =>
    if acc.contains m.telegramChatId then acc else acc ++ [m.telegramChatId]) []

/-- `periodStart`: the earliest timestamp of the valid messages. -/
def minTimestamp : List DbMsg → Int
  | [] => 0
  | m :: rest => rest.foldl (fun a x => min a x.timestamp) m.timestamp

/-- `periodEnd`: the latest timestamp of the valid messages. -/
def maxTimestamp : List DbMsg → Int
  | [] => 0
  | m :: rest => rest.foldl (fun a x => max a x.timestamp) m.timestamp

/-- The per-chat `try` block of `summarizeAndCleanupOldMessages`: a failed
summarization is caught and the loop continues with the next chat; the group
`enabled` flag is *not* consulted on this path. -/
def evictChat (groups : Int → Option GroupRow)
    (summarize : Int → List Msg → Except String String)
    (messagesToCleanup : List DbMsg)
    (acc : EvictionDb × List Invocation) (chatId : Int) : EvictionDb × List Invocation :=
  let messages := messagesToCleanup.filter (fun m => m.telegramChatId == chatId)
  match groups chatId with
  | none => acc
  | some group =>
    if !(jsStrTruthy group.geminiApiKeyEncrypted) then acc
    else
      let validMessages := messages.filter contentNonblank
      if validMessages.isEmpty then acc
      else
        let periodStart := minTimestamp validMessages
        let periodEnd := maxTimestamp validMessages
        let formatted := validMessages.map toGeminiMsg
        let inv : Invocation := ⟨chatId, group.geminiApiKeyEncrypted, group.enabled, formatted⟩
        match summarize chatId formatted with
        | Except.ok summaryText =>
          ({ acc.1 with
              summaries := insertSummary
                ⟨chatId, summaryText, validMessages.length, periodStart, periodEnd⟩
                acc.1.summaries,
              settingsRows := createGroupSettings chatId acc.1.settingsRows },
           acc.2 ++ [inv])
        | Except.error _ => (acc.1, acc.2 ++ [inv])

/-- `TLDRBot.summarizeAndCleanupOldMessages` over one cutoff instant
(`NOW() - 48h`): returns the database after the pass together with the
summarizer invocations issued. The final `cleanupOldMessages(48)` runs after
the per-chat loop, whatever the per-chat outcomes were. -/
def summarizeAndCleanupOldMessages (groups : Int → Option GroupRow)
    (summarize : Int → List Msg → Except String String) (cutoffMs : Int)
    (db : EvictionDb) : EvictionDb × List Invocation :=
  let messagesToCleanup := db.messages.filter (fun m => m.timestamp < cutoffMs)
  if messagesToCleanup.isEmpty then (db, [])
  else
    let processed := (chatIdsInOrder messagesToCleanup).foldl
      (evictChat groups summarize messagesToCleanup) (db, [])
    ({ processed.1 with
        messages := processed.1.messages.filter (fun m => !(m.timestamp < cutoffMs)) },
     processed.2)

/-! ## Interactive entry point (`Commands.handleTLDR`) -/

/-- The in-memory `rateLimitMap` (`key -> timestamp`). -/
structure RateLimitMap where
  entries : List (String × Int)
deriving DecidableEq, Repr

def rlGet (m : RateLimitMap) (k : String) : Option Int :=
  (m.entries.find? (fun e => e.1 == k)).map (fun e => e.2)

/-- `Map.prototype.set`: replace the binding for `k`. -/
def rlSet (m : RateLimitMap) (k : String) (v : Int) : RateLimitMap :=
  ⟨(k, v) :: m.entries.filter (fun e => !(e.1 == k))⟩

/-- `` `${chat.id}:${userId || 'unknown'}` ``. -/
def rateLimitKey (chatId : Int) (userId : Option Int) : String :=
  toString chatId ++ ":" ++ (if numTruthy userId then toString (userId.getD 0) else "unknown")

/-- `RATE_LIMIT_SECONDS = 30`. -/
def RATE_LIMIT_SECONDS : Int := 30

/-- A call against the `Database` issued while handling `/tldr`. -/
inductive DbCall where
  | getGroup (chatId : Int)
  | getLastNMessages (chatId : Int) (count : Int)
  | getMessagesSinceTimestamp (chatId : Int) (since : Int) (limit : Nat)
deriving DecidableEq, Repr

/-- The user-visible outcome of one `/tldr` request (up to the point where
the pipeline would hand the retrieved messages to filtering/summarization). -/
inductive TLDROutcome where
  | groupOnly
  | rateLimited (waitSeconds : Int)
  | notConfigured
  | disabled
  | replyDelegated (fromMessageId : Int)
  | noMessages (countBased : Bool)
  | proceeded (messages : List DbMsg) (summaryLabel : String)
deriving DecidableEq, Repr

/-- One inbound `/tldr` update. `argsText` is `args.slice(1).join(' ')`. -/
structure TLDRRequest where
  chatIsGroup : Bool
  chatId : Int
  fromId : Option Int
  replyTo : Option Int
  argsText : String
  now : Int
deriving DecidableEq, Repr

/-- The repository as seen by `handleTLDR`. -/
structure CmdRepo where
  getGroup : Int → Option GroupRow
  getLastN : Int → Int → List DbMsg
  getSince : Int → Int → Nat → List DbMsg

/-- `Math.ceil(x / 1000)` for the non-negative remainders computed by the
rate limiter. -/
def ceilDiv1000 (x : Int) : Int := (x + 999) / 1000

/-- The body of `handleTLDR` after the rate-limit gate. -/
def handleTLDRBody (repo : CmdRepo) (rl : RateLimitMap) (req : TLDRRequest) :
    TLDROutcome × List DbCall × RateLimitMap :=
  match repo.getGroup req.chatId with
  | none => (TLDROutcome.notConfigured, [DbCall.getGroup req.chatId], rl)
  | some group =>
    if !(jsStrTruthy group.geminiApiKeyEncrypted) then
      (TLDROutcome.notConfigured, [DbCall.getGroup req.chatId], rl)
    else if !group.enabled then (TLDROutcome.disabled, [DbCall.getGroup req.chatId], rl)
    else
      match req.replyTo with
      | some fromMessageId =>
        (TLDROutcome.replyDelegated fromMessageId, [DbCall.getGroup req.chatId], rl)
      | none =>
        let input := jsOrStr (some (jsTrim req.argsText)) "1h"
        if isCountBased input then
          let count := parseCount input
          let messages := repo.getLastN req.chatId count
          let calls := [DbCall.getGroup req.chatId, DbCall.getLastNMessages req.chatId count]
          if messages.isEmpty then (TLDROutcome.noMessages true, calls, rl)
          else (TLDROutcome.proceeded messages ("last " ++ toString count ++ " messages"), calls, rl)
        else
          let since := parseTimeframe input req.now
          let messages := repo.getSince req.chatId since 10000
          let calls := [DbCall.getGroup req.chatId,
            DbCall.getMessagesSinceTimestamp req.chatId since 10000]
          if messages.isEmpty then (TLDROutcome.noMessages false, calls, rl)
          else (TLDROutcome.proceeded messages input, calls, rl)

/-- `Commands.handleTLDR`: the private-chat guard, then the 30-second
rate-limit gate (rejection answers immediately and issues no repository
call), then the configuration checks and the message retrieval. -/
def handleTLDR (repo : CmdRepo) (rl : RateLimitMap) (req : TLDRRequest) :
    TLDROutcome × List DbCall × RateLimitMap :=
  if !req.chatIsGroup then (TLDROutcome.groupOnly, [], rl)
  else
    let key := rateLimitKey req.chatId req.fromId
    match rlGet rl key with
    | some lastCommandTime =>
      if lastCommandTime != 0 && req.now - lastCommandTime < RATE_LIMIT_SECONDS * 1000 then
        (TLDROutcome.rateLimited
          (ceilDiv1000 (RATE_LIMIT_SECONDS * 1000 - (req.now - lastCommandTime))), [], rl)
      else handleTLDRBody repo (rlSet rl key req.now) req
    | none => handleTLDRBody repo (rlSet rl key req.now) req

/-! ## Message caching (`Commands.processMessageForCache`) -/

/-- A cached row of the `messages` table as written by `insertMessage`. -/
structure CachedRow where
  telegramChatId : Int
  messageId : Int
  userId : Option Int
  username : Option String
  firstName : Option String
  content : String
deriving DecidableEq, Repr

/-- `Database.insertMessage`: upsert on `(telegram_chat_id, message_id)`
(`ON CONFLICT ... DO UPDATE SET content, username, first_name, user_id`). -/
def insertMessage (row : CachedRow) (rows : List CachedRow) : List CachedRow :=
  if rows.any (fun r => r.telegramChatId == row.telegramChatId && r.messageId == row.messageId)
  then rows.map (fun r =>
    if r.telegramChatId == row.telegramChatId && r.messageId == row.messageId then
      { r with content := row.content, username := row.username,
               firstName := row.firstName, userId := row.userId }
    else r)
  else rows ++ [row]

/-- One inbound (new or edited) message as seen by `processMessageForCache`. -/
structure IncomingMsg where
  chatIsGroup : Bool
  chatId : Int
  messageId : Int
  fromId : Option Int
  fromIsBot : Bool
  fromUsername : Option String
  fromFirstName : Option String
  text : Option String
  caption : Option String
deriving DecidableEq, Repr

/-- The three settings-driven exclusion tests of `processMessageForCache`,
in source order (`exclude_commands` on `message.text`, `exclude_bot_messages`
on `from.is_bot`, then `excluded_user_ids`). -/
def cacheExcluded (settings : GroupSettings) (m : IncomingMsg) : Bool :=
  (settings.excludeCommands && startsWithSlash m.text) ||
  (settings.excludeBotMessages && m.fromIsBot) ||
  (numTruthy m.fromId && settings.excludedUserIds.isSome &&
    (settings.excludedUserIds.getD []).contains (m.fromId.getD 0))

/-- `Commands.processMessageForCache`: group check, exclusion filters at
insertion time, empty-content check, then upsert with
`content.substring(0, 5000)`. -/
def processMessageForCache (groups : Int → Option GroupRow)
    (settingsOf : Int → GroupSettings) (cache : List CachedRow) (m : IncomingMsg) :
    List CachedRow :=
  if !m.chatIsGroup then cache
  else
    match groups m.chatId with
    | none => cache
    | some _ =>
      let settings := settingsOf m.chatId
      if settings.excludeCommands && startsWithSlash m.text then cache
      else if settings.excludeBotMessages && m.fromIsBot then cache
      else if numTruthy m.fromId && settings.excludedUserIds.isSome &&
          (settings.excludedUserIds.getD []).contains (m.fromId.getD 0) then cache
      else
        let content := jsOrStr m.text (jsOrStr m.caption "")
        if content = "" then cache
        else insertMessage
          ⟨m.chatId, m.messageId, m.fromId, m.fromUsername, m.fromFirstName, jsTake content 5000⟩
          cache

/-- The events that touch the cache over time: message deliveries (new or
edited) and settings changes (settings changes do not touch cached rows). -/
inductive CacheEvent where
  | deliver (m : IncomingMsg)
  | setSettings (chatId : Int) (s : GroupSettings)

/-- The state evolved by the cache events. -/
structure CacheWorld where
  groups : Int → Option GroupRow
  settings : Int → GroupSettings
  cache : List CachedRow

def cacheStep (w : CacheWorld) : CacheEvent → CacheWorld
  | CacheEvent.deliver m =>
    { w with cache := processMessageForCache w.groups w.settings w.cache m }
  | CacheEvent.setSettings chatId s =>
    { w with settings := fun c => if c = chatId then s else w.settings c }

def cacheRun (w : CacheWorld) (events : List CacheEvent) : CacheWorld :=
  events.foldl cacheStep w

/-- Whether a retrieval would see a row for `(chatId, messageId)`. -/
def hasKey (cache : List CachedRow) (chatId messageId : Int) : Bool :=
  cache.any (fun r => r.telegramChatId == chatId && r.messageId == messageId)

/-- Every delivery of `(chatId, messageId)` in the event list is excluded by
the settings in force when it arrives. -/
def droppedAll (chatId messageId : Int) : CacheWorld → List CacheEvent → Bool
  | _, [] => true
  | w, e :: rest =>
    (match e with
     | CacheEvent.deliver m =>
       !(m.chatId == chatId && m.messageId == messageId) ||
         cacheExcluded (w.settings m.chatId) m
     | CacheEvent.setSettings _ _ => true) &&
    droppedAll chatId messageId (cacheStep w e) rest

/-! ## Definitions taken from the specification's wording (for refutation) -/

/-- Modelled from the spec (§4.1): the time-selection grammar as the
specification words it — compact suffix forms `<n>h`, `<n>d`, spaced word
forms `<n> hour(s)`, `<n> day(s)`, `<n> week(s)`, and the bare keywords
`day`, `week` — applied to the normalized (lowercased, space-collapsed)
input. Used only to compare the code's fallback behaviour against the
spec's "unparseable or out-of-grammar input defaults to 1 hour". -/
def specTimeGrammar (n : List Char) : Bool :=
  (endsWithChar n 'h' && !n.dropLast.isEmpty && n.dropLast.all Char.isDigit) ||
  (endsWithChar n 'd' && !n.dropLast.isEmpty && n.dropLast.all Char.isDigit) ||
  (match wordsOf n with
   | [a, b] => !a.isEmpty && a.all Char.isDigit &&
       (b == "hour".data || b == "hours".data || b == "day".data || b == "days".data ||
        b == "week".data || b == "weeks".data)
   | _ => false) ||
  n == "day".data || n == "week".data

/-- The number of `summaries` rows carrying a given
`(telegram_chat_id, period_start, period_end)` key. -/
def countKey (k : Int × Int × Int) (rows : List SummaryRow) : Nat :=
  (rows.filter (fun r => r.telegramChatId == k.1 && r.periodStart == k.2.1 &&
    r.periodEnd == k.2.2)).length

/-! # Theorems

First the general-purpose lemmas, then one theorem per claim (with its
witness or counterexample where required). -/

theorem isDigit_toLower_eq (c : Char) (h : c.isDigit = true) : c.toLower = c := by
  simp [Char.isDigit] at h
  have hn : c.toNat ≤ 57 := h.2
  unfold Char.toLower
  rw [if_neg (by omega)]

theorem isDigit_not_ws (c : Char) (h : c.isDigit = true) : c.isWhitespace = false := by
  simp [Char.isDigit] at h
  have h1 : (48 : Nat) ≤ c.toNat := h.1
  simp only [Char.isWhitespace, Bool.or_eq_false_iff, decide_eq_false_iff_not]
  refine ⟨⟨⟨?_, ?_⟩, ?_⟩, ?_⟩ <;> rintro rfl <;> exact absurd h1 (by decide)

-- sanity checks of the models against the spec's worked examples
example : tfHours "" = 1 := by decide
example : tfHours "9999h" = 168 := by decide
example : tfHours "3 days" = 72 := by decide
example : tfHours "week" = 168 := by decide
example : tfHours "garbage" = 1 := by decide
example : isCountBased "0" = true := by decide
example : parseCount "0" = 100 := by decide
example : parseCount "99999" = 10000 := by decide
example : chunksOf 2 [1, 2, 3, 4, 5] = [[1, 2], [3, 4], [5]] := by decide
example :
    summarizeMessages (fun _ => GenResult.ok (some "S")) [] noOptions genLog0
      = (Except.ok "No messages found in the specified time range.", genLog0) := by decide
example :
    summarizeChunk (fun i => if i < 2 then GenResult.err "boom" else GenResult.ok (some "S"))
      [⟨some "u", none, "hello", 0⟩] noOptions genLog0
      = (Except.ok "S", ⟨3, [1000, 2000]⟩) := by decide

/-! ### Digit-string lemmas -/

theorem digits_map_toLower (l : List Char) (h : ∀ c ∈ l, c.isDigit = true) :
    l.map Char.toLower = l := by
  induction l with
  | nil => rfl
  | cons c rest ih =>
    simp only [List.map_cons, List.cons.injEq]
    exact ⟨isDigit_toLower_eq c (h c (by simp)), ih (fun x hx => h x (by simp [hx]))⟩

theorem dropWhile_ws_of_digits (l : List Char) (h : ∀ c ∈ l, c.isDigit = true) :
    l.dropWhile Char.isWhitespace = l := by
  cases l with
  | nil => rfl
  | cons c rest => simp [List.dropWhile_cons, isDigit_not_ws c (h c (by simp))]

theorem jsTrimL_of_digits (l : List Char) (h : ∀ c ∈ l, c.isDigit = true) :
    jsTrimL l = l := by
  unfold jsTrimL
  rw [dropWhile_ws_of_digits l h,
    dropWhile_ws_of_digits l.reverse (fun c hc => h c (List.mem_reverse.mp hc)),
    List.reverse_reverse]

theorem jsParseIntL_of_digits (l : List Char) (hne : l ≠ []) (h : ∀ c ∈ l, c.isDigit = true) :
    jsParseIntL l = some ((digitsToNat l : Nat) : Int) := by
  unfold jsParseIntL
  rw [dropWhile_ws_of_digits l h]
  cases l with
  | nil => exact absurd rfl hne
  | cons c rest =>
    have hc : c.isDigit = true := h c (by simp)
    have hcm : ¬(c = '-') := by rintro rfl; revert hc; decide
    have hcp : ¬(c = '+') := by rintro rfl; revert hc; decide
    simp only [if_neg hcm, if_neg hcp]
    unfold jsDigits
    rw [List.takeWhile_eq_self_iff.mpr h]
    simp

/-- **C6**: a bare non-negative integer string is recognized as a count
selection; the resulting count lies in [1, 10000], values above 10000 clamp
to 10000 and the value 0 yields the default 100 (so "0" is a count
selection, not a timeframe). -/
theorem parseCount_bare_integer (s : String) (hne : s.data ≠ [])
    (hdig : ∀ c ∈ s.data, c.isDigit = true) :
    isCountBased s = true ∧
    1 ≤ parseCount s ∧ parseCount s ≤ 10000 ∧
    (digitsToNat s.data = 0 → parseCount s = 100) ∧
    (10000 < digitsToNat s.data → parseCount s = 10000) := by
  have hlow : (jsToLower s).data = s.data := digits_map_toLower s.data hdig
  have htrim : jsTrimL s.data = s.data := jsTrimL_of_digits s.data hdig
  have hparse : jsParseInt (jsTrim s) = some ((digitsToNat s.data : Nat) : Int) := by
    show jsParseIntL (jsTrimL s.data) = _
    rw [htrim]
    exact jsParseIntL_of_digits s.data hne hdig
  refine ⟨?_, ?_⟩
  · unfold isCountBased
    show (!(jsTrimL (jsToLower s).data).isEmpty &&
      (jsTrimL (jsToLower s).data).all Char.isDigit) = true
    rw [hlow, htrim]
    simp only [List.isEmpty_iff, List.all_eq_true, Bool.and_eq_true, Bool.not_eq_eq_eq_not,
      Bool.not_true, decide_eq_false_iff_not]
    exact ⟨by simpa using hne, hdig⟩
  · unfold parseCount
    rw [hparse]
    rcases Nat.eq_zero_or_pos (digitsToNat s.data) with hz | hp
    · simp [hz]
    · have h0 : ¬((digitsToNat s.data : Int) ≤ 0) := by omega
      simp only [if_neg h0]
      rcases le_total ((digitsToNat s.data : Int)) 10000 with hle | hge
      · rw [min_eq_left hle]
        refine ⟨by omega, by omega, ?_, ?_⟩
        · intro hzz; omega
        · intro hgt
          have : (10000 : Int) < (digitsToNat s.data : Int) := by omega
          omega
      · rw [min_eq_right hge]
        refine ⟨by norm_num, le_refl _, ?_, fun _ => rfl⟩
        intro hzz; omega

theorem parseCount_bare_integer_witness :
    isCountBased "0" = true ∧ parseCount "0" = 100 ∧ parseCount "12345" = 10000 :=
  ⟨(parseCount_bare_integer "0" (by decide) (by decide)).1,
   (parseCount_bare_integer "0" (by decide) (by decide)).2.2.2.1 (by decide),
   (parseCount_bare_integer "12345" (by decide) (by decide)).2.2.2.2 (by decide)⟩

/-- **C5** (counterexample): "squad" and "5 minutes" are out of the
specification's time grammar, yet the parser resolves them to 24 hours and
5 hours respectively, not to the claimed 1-hour default. -/
theorem parseTimeframe_default_counterexample :
    specTimeGrammar (normalizeTf "squad") = false ∧ tfHours "squad" = 24 ∧
    specTimeGrammar (normalizeTf "5 minutes") = false ∧ tfHours "5 minutes" = 5 := by decide

/-- Every branch of `parseTimeframe` caps the resolved duration at
`MAX_HOURS = 168`. -/
theorem tfHoursCore_le (n : List Char) : tfHoursCore n ≤ 168 := by
  unfold tfHoursCore
  split
  · calc (min _ 7) * 24 ≤ 7 * 24 := Nat.mul_le_mul_right 24 (Nat.min_le_right _ 7)
    _ = 168 := by norm_num
  · exact Nat.min_le_right _ 168
  · calc (min _ 1) * 168 ≤ 1 * 168 := Nat.mul_le_mul_right 168 (Nat.min_le_right _ 1)
    _ = 168 := by norm_num
  · split
    · split
      · omega
      · split
        · omega
        · exact Nat.min_le_right _ 168
    · split
      · split
        · omega
        · split
          · omega
          · calc (min _ 7) * 24 ≤ 7 * 24 := Nat.mul_le_mul_right 24 (Nat.min_le_right _ 7)
            _ = 168 := by norm_num
      · split
        · omega
        · split
          · split
            · exact Nat.min_le_right _ 168
            · omega
          · omega

/-- **C5** (amended): every input resolves to at most 168 hours and the
cutoff is `now` minus the resolved duration; input matching none of the
code's fallback shapes (no spaced number-unit form, not ending in 'h' or
'd', not "day"/"week", no positive leading integer) resolves to exactly
1 hour — but garbage ending in 'd' resolves to 24 hours instead. -/
theorem parseTimeframe_resolved_hours (s : String) (now : Int) :
    tfHours s ≤ 168 ∧
    parseTimeframe s now = now - (tfHours s : Int) * (60 * 60 * 1000) ∧
    (spacedMatch (normalizeTf s) = none →
      endsWithChar (normalizeTf s) 'h' = false →
      endsWithChar (normalizeTf s) 'd' = false →
      normalizeTf s ≠ "day".data → normalizeTf s ≠ "week".data →
      (∀ v : Int, jsParseIntL (normalizeTf s) = some v → v ≤ 0) →
      tfHours s = 1) ∧
    (spacedMatch (normalizeTf s) = none →
      endsWithChar (normalizeTf s) 'h' = false →
      endsWithChar (normalizeTf s) 'd' = true →
      normalizeTf s ≠ "day".data →
      (∀ v : Int, jsParseIntL (normalizeTf s).dropLast = some v → v ≤ 0) →
      tfHours s = 24) := by
  refine ⟨tfHoursCore_le (normalizeTf s), rfl, ?_, ?_⟩
  · intro hm hh hd hday hweek hpos
    unfold tfHours tfHoursCore
    rw [hm]
    simp only [hh, Bool.false_eq_true, if_false]
    rw [if_neg (by simp [hd, hday])]
    rw [if_neg (by simpa using hweek)]
    cases hp : jsParseIntL (normalizeTf s) with
    | none => rfl
    | some v =>
      have := hpos v hp
      show (if 0 < v then min v.toNat 168 else 1) = 1
      rw [if_neg (by omega)]
  · intro hm hh hd hday hpos
    unfold tfHours tfHoursCore
    rw [hm]
    simp only [hh, Bool.false_eq_true, if_false]
    rw [if_pos (Or.inl hd)]
    rw [if_neg hday]
    cases hp : jsParseIntL (normalizeTf s).dropLast with
    | none => rfl
    | some v =>
      have := hpos v hp
      show (if v ≤ 0 then 24 else (min v.toNat 7) * 24) = 24
      rw [if_pos this]

theorem parseTimeframe_resolved_hours_witness :
    tfHours "xyz" ≤ 168 ∧ tfHours "xyz" = 1 ∧ tfHours "squad" = 24 ∧
    parseTimeframe "xyz" 5000 = 5000 - 1 * (60 * 60 * 1000) := by
  have h1 := (parseTimeframe_resolved_hours "xyz" 5000).1
  have h2 := (parseTimeframe_resolved_hours "xyz" 5000).2.2.1 (by decide) (by decide)
    (by decide) (by decide) (by decide)
    (fun v h => by
      rw [show jsParseIntL (normalizeTf "xyz") = none from by decide] at h
      cases h)
  have h3 := (parseTimeframe_resolved_hours "squad" 0).2.2.2 (by decide) (by decide)
    (by decide) (by decide)
    (fun v h => by
      rw [show jsParseIntL (normalizeTf "squad").dropLast = none from by decide] at h
      cases h)
  have h4 := (parseTimeframe_resolved_hours "xyz" 5000).2.1
  exact ⟨h1, h2, h3, by rw [h4, h2]; norm_num⟩

/-- **C8**: `filterMessages` returns an order-preserving subsequence of its
input (no reordering, deduplication or insertion) and is idempotent for a
fixed settings row. -/
theorem filterMessages_subsequence_idempotent (messages : List DbMsg)
    (settings : GroupSettings) :
    (filterMessages messages settings).Sublist messages ∧
    filterMessages (filterMessages messages settings) settings
      = filterMessages messages settings := by
  refine ⟨List.filter_sublist messages, ?_⟩
  simp [filterMessages, List.filter_filter]

/-! ### Chunking lemmas -/

theorem chunksOfAux_nil (n fuel : Nat) : chunksOfAux n fuel ([] : List α) = [] := by
  cases fuel <;> rfl

theorem chunksOfAux_congr (n : Nat) (hn : 0 < n) :
    ∀ (fuel₁ fuel₂ : Nat) (l : List α), l.length ≤ fuel₁ → l.length ≤ fuel₂ →
      chunksOfAux n fuel₁ l = chunksOfAux n fuel₂ l := by
  intro fuel₁
  induction fuel₁ with
  | zero =>
    intro fuel₂ l h1 _
    have : l = [] := by
      cases l with
      | nil => rfl
      | cons c rest => simp at h1
    subst this
    rw [chunksOfAux_nil, chunksOfAux_nil]
  | succ f ih =>
    intro fuel₂ l h1 h2
    cases l with
    | nil => rw [chunksOfAux_nil, chunksOfAux_nil]
    | cons c rest =>
      cases fuel₂ with
      | zero => simp at h2
      | succ f₂ =>
        show (c :: rest).take n :: chunksOfAux n f ((c :: rest).drop n)
          = (c :: rest).take n :: chunksOfAux n f₂ ((c :: rest).drop n)
        have hd : ((c :: rest).drop n).length = (c :: rest).length - n := by
          simp [List.length_drop]
        have hlen : (c :: rest).length = rest.length + 1 := by simp
        rw [ih f₂ ((c :: rest).drop n) (by omega) (by omega)]

theorem chunksOf_cons (n : Nat) (hn : 0 < n) (l : List α) (hl : l ≠ []) :
    chunksOf n l = l.take n :: chunksOf n (l.drop n) := by
  cases l with
  | nil => exact absurd rfl hl
  | cons c rest =>
    show chunksOfAux n (rest.length + 1) (c :: rest)
      = (c :: rest).take n :: chunksOfAux n ((c :: rest).drop n).length ((c :: rest).drop n)
    show (c :: rest).take n :: chunksOfAux n rest.length ((c :: rest).drop n) = _
    have hd : ((c :: rest).drop n).length = (c :: rest).length - n := by
      simp [List.length_drop]
    have hlen : (c :: rest).length = rest.length + 1 := by simp
    rw [chunksOfAux_congr n hn rest.length ((c :: rest).drop n).length ((c :: rest).drop n)
      (by omega) (le_refl _)]

theorem chunksOf_flatten (n : Nat) (hn : 0 < n) (l : List α) : (chunksOf n l).flatten = l := by
  suffices h : ∀ (fuel : Nat) (l : List α), l.length ≤ fuel → (chunksOfAux n fuel l).flatten = l by
    exact h l.length l (le_refl _)
  intro fuel
  induction fuel with
  | zero =>
    intro l h
    have : l = [] := by
      cases l with
      | nil => rfl
      | cons c rest => simp at h
    subst this
    rfl
  | succ f ih =>
    intro l h
    cases l with
    | nil => rfl
    | cons c rest =>
      show ((c :: rest).take n :: chunksOfAux n f ((c :: rest).drop n)).flatten = c :: rest
      rw [List.flatten_cons]
      rw [ih ((c :: rest).drop n)
        (by simp only [List.length_drop, List.length_cons] at h ⊢; omega)]
      exact List.take_append_drop n (c :: rest)

theorem mem_chunksOf (n : Nat) (hn : 0 < n) (l : List α) (c : List α)
    (hc : c ∈ chunksOf n l) : c.length ≤ n ∧ c ≠ [] := by
  suffices h : ∀ (fuel : Nat) (l : List α), l.length ≤ fuel →
      ∀ c ∈ chunksOfAux n fuel l, c.length ≤ n ∧ c ≠ [] by
    exact h l.length l (le_refl _) c hc
  intro fuel
  induction fuel with
  | zero =>
    intro l h c hc
    have : l = [] := by
      cases l with
      | nil => rfl
      | cons x rest => simp at h
    subst this
    rw [chunksOfAux_nil] at hc
    simp at hc
  | succ f ih =>
    intro l h c hc
    cases l with
    | nil =>
      rw [chunksOfAux_nil] at hc
      simp at hc
    | cons x rest =>
      rcases (List.mem_cons).mp hc with he | ht
      · subst he
        constructor
        · simp [List.length_take]
        · have : (x :: rest).take n = x :: rest.take (n - 1) := by
            cases n with
            | zero => omega
            | succ m => simp
          simp [this]
      · exact ih ((x :: rest).drop n)
          (by simp only [List.length_drop, List.length_cons] at h ⊢; omega) c ht

theorem chunksOf_ne_nil (n : Nat) (hn : 0 < n) (l : List α) (hl : l ≠ []) :
    chunksOf n l ≠ [] := by
  rw [chunksOf_cons n hn l hl]
  simp

theorem chunksOf_length_ge_two (n : Nat) (hn : 0 < n) (l : List α) (hl : n < l.length) :
    2 ≤ (chunksOf n l).length := by
  have hne : l ≠ [] := by rintro rfl; simp at hl
  rw [chunksOf_cons n hn l hne]
  have hdne : l.drop n ≠ [] := by
    intro he
    have := congrArg List.length he
    simp [List.length_drop] at this
    omega
  have := chunksOf_ne_nil n hn (l.drop n) hdne
  cases hcc : chunksOf n (l.drop n) with
  | nil => exact absurd hcc this
  | cons a b => simp

theorem chunksOf_len_2500 (l : List α) (h : l.length = 2500) :
    (chunksOf 900 l).map List.length = [900, 900, 700] := by
  have h1 : l ≠ [] := by rintro rfl; simp at h
  rw [chunksOf_cons 900 (by norm_num) l h1]
  have hd1 : (l.drop 900).length = 1600 := by simp [List.length_drop, h]
  have h2 : l.drop 900 ≠ [] := by
    intro he; rw [he] at hd1; simp at hd1
  rw [chunksOf_cons 900 (by norm_num) _ h2]
  have hd2 : ((l.drop 900).drop 900).length = 700 := by
    simp only [List.length_drop, hd1]
  have h3 : (l.drop 900).drop 900 ≠ [] := by
    intro he; rw [he] at hd2; simp at hd2
  rw [chunksOf_cons 900 (by norm_num) _ h3]
  have hd3 : ((l.drop 900).drop 900).drop 900 = [] := by
    rw [← List.length_eq_zero]
    simp only [List.length_drop, hd2]
  rw [hd3]
  show List.map List.length [l.take 900, (l.drop 900).take 900, ((l.drop 900).drop 900).take 900]
    = [900, 900, 700]
  simp only [List.map_cons, List.map_nil, List.length_take, h, hd1, hd2]
  decide

/-! ### Retry-loop and hierarchical-path lemmas -/

theorem summarizeChunkGo_ok (g : Nat → GenResult) (p : String) (r a : Nat) (log : GenLog)
    (t : Option String) (h : g log.calls = GenResult.ok t) :
    summarizeChunkGo g p (r + 1) a log
      = (Except.ok (jsOrStr t "Generated summary (no text returned)"),
         ⟨log.calls + 1, log.delays⟩) := by
  simp [summarizeChunkGo, callGen, h]

theorem summarizeChunkGo_err_cont (g : Nat → GenResult) (p : String) (r a : Nat) (log : GenLog)
    (e : String) (hr : 0 < r) (h : g log.calls = GenResult.err e) :
    summarizeChunkGo g p (r + 1) a log
      = summarizeChunkGo g p r (a + 1) ⟨log.calls + 1, log.delays ++ [1000 * 2 ^ a]⟩ := by
  simp [summarizeChunkGo, callGen, h, hr]

theorem summarizeChunkGo_err_last (g : Nat → GenResult) (p : String) (a : Nat) (log : GenLog)
    (e : String) (h : g log.calls = GenResult.err e) :
    summarizeChunkGo g p 1 a log = (Except.error e, ⟨log.calls + 1, log.delays⟩) := by
  simp [summarizeChunkGo, callGen, h]

theorem summarizeChunk_first_ok (g : Nat → GenResult) (messages : List Msg)
    (options : SummarizeOptions) (log : GenLog) (hne : messages ≠ [])
    (t : Option String) (h : g log.calls = GenResult.ok t) :
    summarizeChunk g messages options log
      = (Except.ok (jsOrStr t "Generated summary (no text returned)"),
         ⟨log.calls + 1, log.delays⟩) := by
  unfold summarizeChunk
  rw [if_neg (by simp [List.isEmpty_iff, hne])]
  exact summarizeChunkGo_ok g _ 2 0 log t h

theorem summarizeChunk_third_attempt (g : Nat → GenResult) (messages : List Msg)
    (options : SummarizeOptions) (log : GenLog) (hne : messages ≠ [])
    (e₁ e₂ : String) (h1 : g log.calls = GenResult.err e₁)
    (h2 : g (log.calls + 1) = GenResult.err e₂) :
    (∀ t, g (log.calls + 2) = GenResult.ok t →
      summarizeChunk g messages options log
        = (Except.ok (jsOrStr t "Generated summary (no text returned)"),
           ⟨log.calls + 3, log.delays ++ [1000 * 2 ^ 0, 1000 * 2 ^ 1]⟩)) ∧
    (∀ e₃, g (log.calls + 2) = GenResult.err e₃ →
      summarizeChunk g messages options log
        = (Except.error e₃, ⟨log.calls + 3, log.delays ++ [1000 * 2 ^ 0, 1000 * 2 ^ 1]⟩)) := by
  have hbase : ∀ res : Except String String, ∀ d : GenLog,
      summarizeChunkGo g (buildChunkPrompt messages options) 1 2
        ⟨log.calls + 2, (log.delays ++ [1000 * 2 ^ 0]) ++ [1000 * 2 ^ 1]⟩ = (res, d) →
      summarizeChunk g messages options log = (res, d) := by
    intro res d hres
    unfold summarizeChunk
    rw [if_neg (by simp [List.isEmpty_iff, hne])]
    rw [summarizeChunkGo_err_cont g _ 2 0 log e₁ (by norm_num) h1]
    rw [summarizeChunkGo_err_cont g _ 1 1 _ e₂ (by norm_num) h2]
    exact hres
  constructor
  · intro t h3
    have := hbase _ _ (summarizeChunkGo_ok g (buildChunkPrompt messages options) 0 2
      ⟨log.calls + 2, (log.delays ++ [1000 * 2 ^ 0]) ++ [1000 * 2 ^ 1]⟩ t h3)
    rw [this]
    simp [List.append_assoc]
  · intro e₃ h3
    have := hbase _ _ (summarizeChunkGo_err_last g (buildChunkPrompt messages options) 2
      ⟨log.calls + 2, (log.delays ++ [1000 * 2 ^ 0]) ++ [1000 * 2 ^ 1]⟩ e₃ h3)
    rw [this]
    simp [List.append_assoc]

theorem summarizeChunk_all_fail (g : Nat → GenResult) (messages : List Msg)
    (options : SummarizeOptions) (log : GenLog) (hne : messages ≠ [])
    (e : String) (hfail : ∀ j, g j = GenResult.err e) :
    summarizeChunk g messages options log
      = (Except.error e, ⟨log.calls + 3, log.delays ++ [1000 * 2 ^ 0, 1000 * 2 ^ 1]⟩) :=
  (summarizeChunk_third_attempt g messages options log hne e e (hfail _) (hfail _)).2 e (hfail _)

theorem summarizeChunksLoop_all_ok (g : Nat → GenResult) (options : SummarizeOptions)
    (total : Nat) :
    ∀ (chunks : List (List Msg)) (i : Nat) (log : GenLog),
    (∀ c ∈ chunks, c ≠ []) →
    (∀ j, j < chunks.length → ∃ t, g (log.calls + j) = GenResult.ok t) →
    ∃ ss, summarizeChunksLoop g options total chunks i log
        = (Except.ok ss, ⟨log.calls + chunks.length, log.delays⟩) ∧
      ss.length = chunks.length := by
  intro chunks
  induction chunks with
  | nil => exact fun i log _ _ => ⟨[], rfl, rfl⟩
  | cons c rest ih =>
    intro i log hne hok
    obtain ⟨t, ht⟩ := hok 0 (by simp)
    obtain ⟨ss, hss, hlen⟩ := ih (i + 1) ⟨log.calls + 1, log.delays⟩
      (fun x hx => hne x (by simp [hx]))
      (fun j hj => by
        obtain ⟨u, hu⟩ := hok (j + 1) (by simpa using Nat.succ_lt_succ hj)
        exact ⟨u, by rwa [show log.calls + 1 + j = log.calls + (j + 1) by omega]⟩)
    refine ⟨chunkLabel i total c.length (jsOrStr t "Generated summary (no text returned)") :: ss,
      ?_, by simp [hlen]⟩
    show (match summarizeChunk g c options log with
      | (Except.ok s, log') =>
        (match summarizeChunksLoop g options total rest (i + 1) log' with
         | (Except.ok ss, log'') => (Except.ok (chunkLabel i total c.length s :: ss), log'')
         | (Except.error e, log'') => (Except.error e, log''))
      | (Except.error e, log') => (Except.error e, log')) = _
    rw [summarizeChunk_first_ok g c options log (hne c (by simp)) t ht]
    show (match summarizeChunksLoop g options total rest (i + 1) ⟨log.calls + 1, log.delays⟩ with
      | (Except.ok ss, log'') =>
        (Except.ok (chunkLabel i total c.length
          (jsOrStr t "Generated summary (no text returned)") :: ss), log'')
      | (Except.error e, log'') => (Except.error e, log'')) = _
    rw [hss]
    have : log.calls + 1 + rest.length = log.calls + (rest.length + 1) := by omega
    simp [this]

theorem summarizeMessages_large (g : Nat → GenResult) (msgs : List Msg)
    (opts : SummarizeOptions) (hlen : 1000 < msgs.length)
    (hok : ∀ j, j < (chunksOf 900 msgs).length → ∃ t, g j = GenResult.ok t) :
    ∃ ss : List String, ss.length = (chunksOf 900 msgs).length ∧
      (summarizeMessages g msgs opts genLog0).2.calls = (chunksOf 900 msgs).length + 1 ∧
      (∀ em, g ((chunksOf 900 msgs).length) = GenResult.err em →
        (summarizeMessages g msgs opts genLog0).1
          = Except.ok ("Summary of " ++ toString msgs.length ++ " messages:\n\n"
              ++ String.intercalate "\n\n---\n\n" ss)) := by
  have hne : msgs ≠ [] := by rintro rfl; simp at hlen
  obtain ⟨ss, hss, hlen2⟩ := summarizeChunksLoop_all_ok g opts (chunksOf 900 msgs).length
    (chunksOf 900 msgs) 0 genLog0
    (fun c hc => (mem_chunksOf 900 (by norm_num) msgs c hc).2)
    (fun j hj => by simpa [genLog0] using hok j hj)
  have hss2 : summarizeChunksLoop g opts (chunksOf 900 msgs).length (chunksOf 900 msgs) 0 genLog0
      = (Except.ok ss, ⟨(chunksOf 900 msgs).length, []⟩) := by
    rw [hss]
    simp [genLog0]
  have h2 : 2 ≤ ss.length := by
    rw [hlen2]
    exact chunksOf_length_ge_two 900 (by norm_num) msgs (by omega)
  obtain ⟨a, tail, rfl⟩ : ∃ a tail, ss = a :: tail := by
    cases ss with
    | nil => simp at h2
    | cons a tail => exact ⟨a, tail, rfl⟩
  obtain ⟨b, t2, rfl⟩ : ∃ b t2, tail = b :: t2 := by
    cases tail with
    | nil => simp at h2
    | cons b t2 => exact ⟨b, t2, rfl⟩
  have hkey : summarizeMessages g msgs opts genLog0
      = (match g ((chunksOf 900 msgs).length) with
         | GenResult.ok t =>
           (Except.ok (jsOrStr t ("Summary of " ++ toString msgs.length
             ++ " messages (processed in " ++ toString (chunksOf 900 msgs).length
             ++ " chunks)")), GenLog.mk ((chunksOf 900 msgs).length + 1) [])
         | GenResult.err _ =>
           (Except.ok ("Summary of " ++ toString msgs.length ++ " messages:\n\n"
             ++ String.intercalate "\n\n---\n\n" (a :: b :: t2)),
            GenLog.mk ((chunksOf 900 msgs).length + 1) [])) := by
    unfold summarizeMessages
    rw [if_neg (by simp [List.isEmpty_iff, hne]), if_pos hlen]
    unfold summarizeLargeMessageSet
    simp only []
    rw [hss2]
    cases hg : g ((chunksOf 900 msgs).length) with
    | ok t => simp [callGen, hg]
    | err e => simp [callGen, hg]
  refine ⟨a :: b :: t2, hlen2, ?_, ?_⟩
  · rw [hkey]
    cases hg : g ((chunksOf 900 msgs).length) <;> rfl
  · intro em hm
    rw [hkey, hm]

theorem summarizeMessages_single_ok (g : Nat → GenResult) (msgs : List Msg)
    (opts : SummarizeOptions) (hne : msgs ≠ []) (hlen : msgs.length ≤ 1000)
    (t : Option String) (h : g 0 = GenResult.ok t) :
    summarizeMessages g msgs opts genLog0
      = (Except.ok (jsOrStr t "Generated summary (no text returned)"), ⟨1, []⟩) := by
  unfold summarizeMessages
  rw [if_neg (by simp [List.isEmpty_iff, hne]), if_neg (by omega)]
  rw [summarizeChunk_first_ok g msgs opts genLog0 hne t h]
  rfl

theorem summarizeMessages_single_fail (g : Nat → GenResult) (msgs : List Msg)
    (opts : SummarizeOptions) (e : String) (hne : msgs ≠ []) (hlen : msgs.length ≤ 1000)
    (hfail : ∀ j, g j = GenResult.err e) :
    summarizeMessages g msgs opts genLog0
      = (Except.error (classifyGenError e), ⟨3, [1000 * 2 ^ 0, 1000 * 2 ^ 1]⟩) := by
  unfold summarizeMessages
  rw [if_neg (by simp [List.isEmpty_iff, hne]), if_neg (by omega)]
  rw [summarizeChunk_all_fail g msgs opts genLog0 hne e hfail]
  rfl

theorem summarizeChunksLoop_first_fail (g : Nat → GenResult) (opts : SummarizeOptions)
    (total : Nat) (c : List Msg) (rest : List (List Msg)) (i : Nat) (log : GenLog)
    (hne : c ≠ []) (e : String) (hfail : ∀ j, g j = GenResult.err e) :
    summarizeChunksLoop g opts total (c :: rest) i log
      = (Except.error e, ⟨log.calls + 3, log.delays ++ [1000 * 2 ^ 0, 1000 * 2 ^ 1]⟩) := by
  show (match summarizeChunk g c opts log with
    | (Except.ok s, log') =>
      (match summarizeChunksLoop g opts total rest (i + 1) log' with
       | (Except.ok ss, log'') => (Except.ok (chunkLabel i total c.length s :: ss), log'')
       | (Except.error e, log'') => (Except.error e, log''))
    | (Except.error e, log') => (Except.error e, log')) = _
  rw [summarizeChunk_all_fail g c opts log hne e hfail]

theorem summarizeMessages_large_fail (g : Nat → GenResult) (msgs : List Msg)
    (opts : SummarizeOptions) (e : String) (hlen : 1000 < msgs.length)
    (hfail : ∀ j, g j = GenResult.err e) :
    (summarizeMessages g msgs opts genLog0).1 = Except.error e := by
  have hne : msgs ≠ [] := by rintro rfl; simp at hlen
  have hcons : chunksOf 900 msgs = msgs.take 900 :: chunksOf 900 (msgs.drop 900) :=
    chunksOf_cons 900 (by norm_num) msgs hne
  have htake : msgs.take 900 ≠ [] :=
    (mem_chunksOf 900 (by norm_num) msgs (msgs.take 900) (by rw [hcons]; simp)).2
  unfold summarizeMessages
  rw [if_neg (by simp [List.isEmpty_iff, hne]), if_pos hlen]
  unfold summarizeLargeMessageSet
  simp only []
  rw [hcons, summarizeChunksLoop_first_fail g opts _ _ _ 0 genLog0 htake e hfail]

/-- **C3** (amended): with every generation attempt succeeding, a non-empty
sequence of at most 1000 messages issues exactly one generation call; a
longer sequence is split into contiguous chunks of at most 900 messages
preserving the original order, each summarized with one call, followed by a
single merge call; a sequence of 2500 messages yields chunks of sizes
900/900/700 and exactly 4 calls (3 chunk calls plus one merge). -/
theorem summarizeMessages_chunking (msgs : List Msg) (opts : SummarizeOptions)
    (g : Nat → GenResult) (hok : ∀ j, ∃ t, g j = GenResult.ok t) :
    (msgs ≠ [] → msgs.length ≤ 1000 →
      (summarizeMessages g msgs opts genLog0).2.calls = 1) ∧
    (1000 < msgs.length →
      (chunksOf 900 msgs).flatten = msgs ∧
      (∀ c ∈ chunksOf 900 msgs, c.length ≤ 900 ∧ c ≠ []) ∧
      2 ≤ (chunksOf 900 msgs).length ∧
      (summarizeMessages g msgs opts genLog0).2.calls = (chunksOf 900 msgs).length + 1) ∧
    (msgs.length = 2500 →
      (chunksOf 900 msgs).map List.length = [900, 900, 700] ∧
      (summarizeMessages g msgs opts genLog0).2.calls = 4) := by
  have hcalls : 1000 < msgs.length →
      (summarizeMessages g msgs opts genLog0).2.calls = (chunksOf 900 msgs).length + 1 := by
    intro hlen
    obtain ⟨ss, _, hc, _⟩ := summarizeMessages_large g msgs opts hlen (fun j _ => hok j)
    exact hc
  refine ⟨?_, ?_, ?_⟩
  · intro hne hlen
    obtain ⟨t, ht⟩ := hok 0
    rw [summarizeMessages_single_ok g msgs opts hne hlen t ht]
  · intro hlen
    exact ⟨chunksOf_flatten 900 (by norm_num) msgs,
      fun c hc => mem_chunksOf 900 (by norm_num) msgs c hc,
      chunksOf_length_ge_two 900 (by norm_num) msgs (by omega),
      hcalls hlen⟩
  · intro h2500
    have hmap := chunksOf_len_2500 msgs h2500
    have hnum : (chunksOf 900 msgs).length = 3 := by
      have := congrArg List.length hmap
      simpa using this
    refine ⟨hmap, ?_⟩
    rw [hcalls (by omega), hnum]

theorem summarizeMessages_chunking_witness :
    ((chunksOf 900 (List.replicate 2500 (⟨none, none, "m", 0⟩ : Msg))).map List.length
      = [900, 900, 700]) ∧
    (summarizeMessages (fun _ => GenResult.ok (some "S"))
      (List.replicate 2500 (⟨none, none, "m", 0⟩ : Msg)) noOptions genLog0).2.calls = 4 :=
  (summarizeMessages_chunking (List.replicate 2500 ⟨none, none, "m", 0⟩) noOptions
    (fun _ => GenResult.ok (some "S")) (fun _ => ⟨some "S", rfl⟩)).2.2
    (by rw [List.length_replicate])

/-- **C3** (counterexample): the claim as stated quantifies over every
sequence of length at most 1000, but the empty sequence issues zero
generation calls (the summarizer returns the fixed sentinel without
calling the generation capability), not exactly one. -/
theorem summarizeMessages_chunking_counterexample :
    (summarizeMessages (fun _ => GenResult.ok (some "S")) ([] : List Msg)
      noOptions genLog0).2.calls = 0 ∧
    ¬((summarizeMessages (fun _ => GenResult.ok (some "S")) ([] : List Msg)
      noOptions genLog0).2.calls = 1) := by decide

/-- **C4**: each per-chunk generation call is attempted up to 3 times with
exponentially doubling backoff (1000ms, then 2000ms); a chunk that fails all
3 attempts aborts the whole multi-chunk summarization with that error, while
a failing final merge call degrades gracefully to the concatenation of the
chunk summaries. -/
theorem summarizeChunk_retry_and_merge_fallback :
    (∀ (g : Nat → GenResult) (msgs : List Msg) (opts : SummarizeOptions) (log : GenLog)
        (e₁ e₂ : String) (t : Option String), msgs ≠ [] →
        g log.calls = GenResult.err e₁ → g (log.calls + 1) = GenResult.err e₂ →
        g (log.calls + 2) = GenResult.ok t →
        summarizeChunk g msgs opts log
          = (Except.ok (jsOrStr t "Generated summary (no text returned)"),
             ⟨log.calls + 3, log.delays ++ [1000 * 2 ^ 0, 1000 * 2 ^ 1]⟩)) ∧
    (∀ (g : Nat → GenResult) (msgs : List Msg) (opts : SummarizeOptions) (log : GenLog)
        (e₁ e₂ e₃ : String), msgs ≠ [] →
        g log.calls = GenResult.err e₁ → g (log.calls + 1) = GenResult.err e₂ →
        g (log.calls + 2) = GenResult.err e₃ →
        summarizeChunk g msgs opts log
          = (Except.error e₃, ⟨log.calls + 3, log.delays ++ [1000 * 2 ^ 0, 1000 * 2 ^ 1]⟩)) ∧
    (∀ (g : Nat → GenResult) (msgs : List Msg) (opts : SummarizeOptions) (e : String),
        1000 < msgs.length → (∀ j, g j = GenResult.err e) →
        (summarizeMessages g msgs opts genLog0).1 = Except.error e) ∧
    (∀ (g : Nat → GenResult) (msgs : List Msg) (opts : SummarizeOptions) (em : String),
        1000 < msgs.length →
        (∀ j, j < (chunksOf 900 msgs).length → ∃ t, g j = GenResult.ok t) →
        g ((chunksOf 900 msgs).length) = GenResult.err em →
        ∃ ss : List String, ss.length = (chunksOf 900 msgs).length ∧
          (summarizeMessages g msgs opts genLog0).1
            = Except.ok ("Summary of " ++ toString msgs.length ++ " messages:\n\n"
                ++ String.intercalate "\n\n---\n\n" ss)) := by
  refine ⟨?_, ?_, ?_, ?_⟩
  · intro g msgs opts log e₁ e₂ t hne h1 h2 h3
    exact (summarizeChunk_third_attempt g msgs opts log hne e₁ e₂ h1 h2).1 t h3
  · intro g msgs opts log e₁ e₂ e₃ hne h1 h2 h3
    exact (summarizeChunk_third_attempt g msgs opts log hne e₁ e₂ h1 h2).2 e₃ h3
  · intro g msgs opts e hlen hfail
    exact summarizeMessages_large_fail g msgs opts e hlen hfail
  · intro g msgs opts em hlen hok hm
    obtain ⟨ss, hsl, _, hfb⟩ := summarizeMessages_large g msgs opts hlen hok
    exact ⟨ss, hsl, hfb em hm⟩

theorem summarizeChunk_retry_and_merge_fallback_witness :
    (summarizeChunk (fun i => if i < 2 then GenResult.err "boom" else GenResult.ok (some "S"))
        [⟨some "u", none, "hello", 0⟩] noOptions genLog0
      = (Except.ok (jsOrStr (some "S") "Generated summary (no text returned)"),
         ⟨0 + 3, [] ++ [1000 * 2 ^ 0, 1000 * 2 ^ 1]⟩)) ∧
    ((summarizeMessages (fun _ => GenResult.err "boom")
        (List.replicate 1001 (⟨none, none, "m", 0⟩ : Msg)) noOptions genLog0).1
      = Except.error "boom") :=
  ⟨summarizeChunk_retry_and_merge_fallback.1
      (fun i => if i < 2 then GenResult.err "boom" else GenResult.ok (some "S"))
      [⟨some "u", none, "hello", 0⟩] noOptions genLog0 "boom" "boom" (some "S")
      (by decide) (by decide) (by decide) (by decide),
   summarizeChunk_retry_and_merge_fallback.2.2.1 (fun _ => GenResult.err "boom")
      (List.replicate 1001 ⟨none, none, "m", 0⟩) noOptions "boom"
      (by rw [List.length_replicate]; norm_num) (fun j => rfl)⟩

/-- **C2** (amended): when every generation attempt fails with the same
underlying error, the single-chunk path (at most 1000 messages) surfaces the
error classified by the taxonomy at the chunk boundary, while the
multi-chunk path (more than 1000 messages) propagates the raw error without
classification; the classifier maps each substring/status marker to its
stable user-facing message, in source priority order, and leaves
unrecognized errors unchanged. -/
theorem summarizeMessages_error_classification (e : String) :
    (∀ (msgs : List Msg) (opts : SummarizeOptions) (g : Nat → GenResult),
      msgs ≠ [] → msgs.length ≤ 1000 → (∀ j, g j = GenResult.err e) →
      (summarizeMessages g msgs opts genLog0).1 = Except.error (classifyGenError e)) ∧
    (∀ (msgs : List Msg) (opts : SummarizeOptions) (g : Nat → GenResult),
      1000 < msgs.length → (∀ j, g j = GenResult.err e) →
      (summarizeMessages g msgs opts genLog0).1 = Except.error e) ∧
    (let m := if e = "" then "Unknown error" else e
     let c₁ := strIncludes m "API_KEY_INVALID" || strIncludes m "401" || strIncludes m "Unauthorized"
     let c₂ := strIncludes m "PERMISSION_DENIED" || strIncludes m "403"
     let c₃ := strIncludes m "QUOTA_EXCEEDED" || strIncludes m "429"
     let c₄ := strIncludes m "timeout" || strIncludes m "TIMEOUT"
     let c₅ := strIncludes m "network" || strIncludes m "ECONNREFUSED" || strIncludes m "ENOTFOUND"
     (c₁ = true → classifyGenError e
        = "Invalid API key. Please check your Gemini API key and ensure it\x27s correct. You can update it using /update_api_key.") ∧
     (c₁ = false → c₂ = true → classifyGenError e
        = "Permission denied. Your API key may not have access to the Gemini API. Please check your API key permissions.") ∧
     (c₁ = false → c₂ = false → c₃ = true → classifyGenError e
        = "API quota exceeded. Your Gemini API key has reached its rate limit or quota. Please try again later or check your API usage.") ∧
     (c₁ = false → c₂ = false → c₃ = false → c₄ = true → classifyGenError e
        = "Request timeout. The API request took too long. Please try again.") ∧
     (c₁ = false → c₂ = false → c₃ = false → c₄ = false → c₅ = true → classifyGenError e
        = "Network error. Could not connect to the Gemini API. Please check your internet connection and try again.") ∧
     (c₁ = false → c₂ = false → c₃ = false → c₄ = false → c₅ = false →
        classifyGenError e = e)) := by
  refine ⟨?_, ?_, ?_⟩
  · intro msgs opts g hne hlen hfail
    rw [summarizeMessages_single_fail g msgs opts e hne hlen hfail]
  · intro msgs opts g hlen hfail
    exact summarizeMessages_large_fail g msgs opts e hlen hfail
  · refine ⟨?_, ?_, ?_, ?_, ?_, ?_⟩ <;> intros <;> simp only [classifyGenError] <;>
      simp_all

theorem summarizeMessages_error_classification_witness :
    ((summarizeMessages (fun _ => GenResult.err "status 429 Too Many Requests")
        [⟨some "u", none, "hello", 0⟩] noOptions genLog0).1
      = Except.error (classifyGenError "status 429 Too Many Requests")) ∧
    classifyGenError "status 429 Too Many Requests"
      = "API quota exceeded. Your Gemini API key has reached its rate limit or quota. Please try again later or check your API usage." :=
  ⟨(summarizeMessages_error_classification "status 429 Too Many Requests").1
      [⟨some "u", none, "hello", 0⟩] noOptions (fun _ => GenResult.err "status 429 Too Many Requests")
      (by decide) (by decide) (fun j => rfl),
   (summarizeMessages_error_classification "status 429 Too Many Requests").2.2.2.2.1
      (by decide) (by decide) (by decide)⟩

/-- **C2** (counterexample): a failure on the multi-chunk path (1001
messages) containing the "401" marker is surfaced raw, even though the
classifier would have rewritten it to the invalid-credential message — so
the classification does not apply regardless of the path taken. -/
theorem summarizeMessages_error_classification_counterexample :
    ((summarizeMessages (fun _ => GenResult.err "401 boom")
        (List.replicate 1001 (⟨none, none, "m", 0⟩ : Msg)) noOptions genLog0).1
      = Except.error "401 boom") ∧
    classifyGenError "401 boom" ≠ "401 boom" := by
  constructor
  · exact summarizeMessages_large_fail _ _ _ _ (by rw [List.length_replicate]; norm_num)
      (fun j => rfl)
  · decide

/-! ### Scheduler-path lemmas -/

theorem mem_generateScheduledSummary (w : SchedWorld) (chatId : Int) (s : GroupSettings)
    (inv : Invocation) (h : inv ∈ generateScheduledSummary w chatId s) :
    ∃ group, w.groups chatId = some group ∧ inv.apiKey = group.geminiApiKeyEncrypted ∧
      inv.enabled = group.enabled ∧ jsStrTruthy group.geminiApiKeyEncrypted = true ∧
      inv.messages ≠ [] := by
  unfold generateScheduledSummary at h
  split at h
  · simp at h
  · rename_i group hg
    split at h
    · simp at h
    · rename_i hkey
      split at h <;>
      · simp only [] at h
        split at h
        · simp at h
        · split at h
          · simp at h
          · rename_i hfil
            simp only [List.mem_singleton] at h
            subst h
            refine ⟨group, hg, rfl, rfl, by simpa using hkey, ?_⟩
            simp only [ne_eq, List.map_eq_nil_iff]
            simpa [List.isEmpty_iff] using hfil

theorem mem_schedOne (w : SchedWorld) (s : GroupSettings) (inv : Invocation)
    (h : inv ∈ schedOne w s) :
    ∃ group, w.groups s.telegramChatId = some group ∧
      jsStrTruthy group.geminiApiKeyEncrypted = true ∧ group.enabled = true ∧
      inv ∈ generateScheduledSummary w s.telegramChatId s := by
  unfold schedOne at h
  split at h
  · simp at h
  · rename_i group hg
    split at h
    · simp at h
    · rename_i hcond
      have hc : jsStrTruthy group.geminiApiKeyEncrypted = true ∧ group.enabled = true := by
        rcases Bool.eq_false_or_eq_true (jsStrTruthy group.geminiApiKeyEncrypted) with h1 | h1 <;>
          rcases Bool.eq_false_or_eq_true group.enabled with h2 | h2 <;>
          simp [h1, h2] at hcond ⊢
      refine ⟨group, hg, hc.1, hc.2, ?_⟩
      split at h
      next scheduleHour scheduleMinute heq =>
        simp only [] at h
        split at h
        · simp at h
        · split at h
          · simp at h
          · split at h
            · split at h
              · simp at h
              · exact h
            · exact h
      all_goals simp at h

theorem checkAndRun_mem (w : SchedWorld) (inv : Invocation)
    (h : inv ∈ checkAndRunScheduledSummaries w) : ∃ s ∈ w.schedGroups, inv ∈ schedOne w s := by
  unfold checkAndRunScheduledSummaries at h
  suffices haux : ∀ (l : List GroupSettings) (acc : List Invocation),
      inv ∈ l.foldl (fun acc settings => acc ++ schedOne w settings) acc →
      inv ∈ acc ∨ ∃ s ∈ l, inv ∈ schedOne w s by
    rcases haux w.schedGroups [] h with hin | hex
    · simp at hin
    · exact hex
  intro l
  induction l with
  | nil => exact fun acc h2 => Or.inl h2
  | cons s rest ih =>
    intro acc h2
    rcases ih (acc ++ schedOne w s) h2 with hin | ⟨s2, hs2, hinv⟩
    · rcases List.mem_append.mp hin with h3 | h3
      · exact Or.inl h3
      · exact Or.inr ⟨s, by simp, h3⟩
    · exact Or.inr ⟨s2, by simp [hs2], hinv⟩

/-! ### Eviction-pass lemmas -/

theorem insertSummary_sublist (row : SummaryRow) (rows : List SummaryRow) :
    rows.Sublist (insertSummary row rows) := by
  unfold insertSummary
  split
  · exact List.Sublist.refl _
  · exact List.sublist_append_left rows [row]

theorem insertSummary_countKey (row : SummaryRow) (rows : List SummaryRow)
    (k : Int × Int × Int) :
    countKey k (insertSummary row rows) ≤ max 1 (countKey k rows) := by
  unfold insertSummary
  split
  · exact le_max_right _ _
  · rename_i hnone
    unfold countKey
    rw [List.filter_append, List.length_append]
    by_cases hk : (row.telegramChatId == k.1 && row.periodStart == k.2.1
        && row.periodEnd == k.2.2) = true
    · have hkeys := hk
      simp only [Bool.and_eq_true, beq_iff_eq] at hkeys
      have hzero : (rows.filter (fun r => r.telegramChatId == k.1 && r.periodStart == k.2.1 &&
          r.periodEnd == k.2.2)).length = 0 := by
        rw [List.length_eq_zero, List.filter_eq_nil_iff]
        intro r hr hcontra
        have hr2 := hcontra
        simp only [Bool.and_eq_true, beq_iff_eq] at hr2
        have : rows.any (fun r => r.telegramChatId == row.telegramChatId &&
            r.periodStart == row.periodStart && r.periodEnd == row.periodEnd) = true := by
          rw [List.any_eq_true]
          exact ⟨r, hr, by simp [beq_iff_eq, hr2.1.1, hr2.1.2, hr2.2,
            hkeys.1.1, hkeys.1.2, hkeys.2]⟩
        simp [this] at hnone
      rw [hzero]
      simp [List.filter, hk]
    · have : ([row].filter (fun r => r.telegramChatId == k.1 && r.periodStart == k.2.1 &&
          r.periodEnd == k.2.2)).length = 0 := by
        simp [List.filter, hk]
      rw [this]
      simp only [Nat.add_zero]
      exact le_max_right 1 (countKey k rows)

theorem evictChat_invs (groups : Int → Option GroupRow)
    (summarize : Int → List Msg → Except String String) (stale : List DbMsg)
    (acc : EvictionDb × List Invocation) (c : Int)
    (hacc : ∀ inv ∈ acc.2, jsStrTruthy inv.apiKey = true ∧ inv.messages ≠ []) :
    ∀ inv ∈ (evictChat groups summarize stale acc c).2,
      jsStrTruthy inv.apiKey = true ∧ inv.messages ≠ [] := by
  intro inv h
  unfold evictChat at h
  split at h
  · exact hacc inv h
  · rename_i group hg
    split at h
    · exact hacc inv h
    · rename_i hkey
      simp only [] at h
      split at h
      · exact hacc inv h
      · rename_i hval
        have hnew : jsStrTruthy group.geminiApiKeyEncrypted = true ∧
            ((stale.filter (fun m => m.telegramChatId == c)).filter contentNonblank).map
              toGeminiMsg ≠ [] := by
          constructor
          · simpa using hkey
          · simp only [ne_eq, List.map_eq_nil_iff]
            simpa [List.isEmpty_iff] using hval
        split at h <;>
          rcases List.mem_append.mp h with h2 | h2 <;>
          first
          | exact hacc inv h2
          | (simp only [List.mem_singleton] at h2; subst h2; exact hnew)

theorem evictChat_state (groups : Int → Option GroupRow)
    (summarize : Int → List Msg → Except String String) (stale : List DbMsg)
    (acc : EvictionDb × List Invocation) (c : Int) :
    (evictChat groups summarize stale acc c).1.messages = acc.1.messages ∧
    acc.1.summaries.Sublist (evictChat groups summarize stale acc c).1.summaries ∧
    ∀ k, countKey k (evictChat groups summarize stale acc c).1.summaries
      ≤ max 1 (countKey k acc.1.summaries) := by
  unfold evictChat
  split
  · exact ⟨rfl, List.Sublist.refl _, fun k => le_max_right _ _⟩
  · split
    · exact ⟨rfl, List.Sublist.refl _, fun k => le_max_right _ _⟩
    · simp only []
      split
      · exact ⟨rfl, List.Sublist.refl _, fun k => le_max_right _ _⟩
      · split
        · exact ⟨rfl, insertSummary_sublist _ _, fun k => insertSummary_countKey _ _ k⟩
        · exact ⟨rfl, List.Sublist.refl _, fun k => le_max_right _ _⟩

theorem evict_foldl_invs (groups : Int → Option GroupRow)
    (summarize : Int → List Msg → Except String String) (stale : List DbMsg) :
    ∀ (chats : List Int) (acc : EvictionDb × List Invocation),
    (∀ inv ∈ acc.2, jsStrTruthy inv.apiKey = true ∧ inv.messages ≠ []) →
    ∀ inv ∈ (chats.foldl (evictChat groups summarize stale) acc).2,
      jsStrTruthy inv.apiKey = true ∧ inv.messages ≠ [] := by
  intro chats
  induction chats with
  | nil => exact fun acc hacc => hacc
  | cons c rest ih =>
    intro acc hacc
    exact ih (evictChat groups summarize stale acc c)
      (evictChat_invs groups summarize stale acc c hacc)

theorem evict_foldl_state (groups : Int → Option GroupRow)
    (summarize : Int → List Msg → Except String String) (stale : List DbMsg) :
    ∀ (chats : List Int) (acc : EvictionDb × List Invocation),
    (chats.foldl (evictChat groups summarize stale) acc).1.messages = acc.1.messages ∧
    acc.1.summaries.Sublist ((chats.foldl (evictChat groups summarize stale) acc).1.summaries) ∧
    ∀ k, countKey k ((chats.foldl (evictChat groups summarize stale) acc).1.summaries)
      ≤ max 1 (countKey k acc.1.summaries) := by
  intro chats
  induction chats with
  | nil => exact fun acc => ⟨rfl, List.Sublist.refl _, fun k => le_max_right _ _⟩
  | cons c rest ih =>
    intro acc
    obtain ⟨hm1, hs1, hk1⟩ := evictChat_state groups summarize stale acc c
    obtain ⟨hm2, hs2, hk2⟩ := ih (evictChat groups summarize stale acc c)
    simp only [List.foldl_cons]
    refine ⟨by rw [hm2, hm1], hs1.trans hs2, fun k => ?_⟩
    calc countKey k ((rest.foldl (evictChat groups summarize stale)
          (evictChat groups summarize stale acc c)).1.summaries)
        ≤ max 1 (countKey k (evictChat groups summarize stale acc c).1.summaries) := hk2 k
      _ ≤ max 1 (max 1 (countKey k acc.1.summaries)) := by
          exact max_le_max (le_refl 1) (hk1 k)
      _ = max 1 (countKey k acc.1.summaries) := by rw [← max_assoc, max_self]

theorem filter_p_filter_not (p : α → Bool) (l : List α) :
    (l.filter (fun a => !(p a))).filter p = [] := by
  rw [List.filter_filter]
  have hfalse : (fun a => p a && !(p a)) = fun _ => false := by
    funext a; cases p a <;> rfl
  rw [hfalse]
  simp

theorem filter_not_of_filter_nil (p : α → Bool) (l : List α) (h : l.filter p = []) :
    l.filter (fun a => !(p a)) = l := by
  rw [List.filter_eq_self]
  intro a ha
  have := List.filter_eq_nil_iff.mp h a ha
  simp [this]

theorem summarizeAndCleanup_empty (groups : Int → Option GroupRow)
    (summarize : Int → List Msg → Except String String) (cutoffMs : Int) (db : EvictionDb)
    (h : (db.messages.filter (fun m => m.timestamp < cutoffMs)).isEmpty = true) :
    summarizeAndCleanupOldMessages groups summarize cutoffMs db = (db, []) := by
  unfold summarizeAndCleanupOldMessages
  simp only []
  rw [if_pos h]

theorem summarizeAndCleanup_nonempty (groups : Int → Option GroupRow)
    (summarize : Int → List Msg → Except String String) (cutoffMs : Int) (db : EvictionDb)
    (h : ¬(db.messages.filter (fun m => m.timestamp < cutoffMs)).isEmpty = true) :
    summarizeAndCleanupOldMessages groups summarize cutoffMs db
      = ({ ((chatIdsInOrder (db.messages.filter (fun m => m.timestamp < cutoffMs))).foldl
            (evictChat groups summarize (db.messages.filter (fun m => m.timestamp < cutoffMs)))
            (db, [])).1 with
          messages := ((chatIdsInOrder (db.messages.filter (fun m => m.timestamp < cutoffMs))).foldl
            (evictChat groups summarize (db.messages.filter (fun m => m.timestamp < cutoffMs)))
            (db, [])).1.messages.filter (fun m => !(m.timestamp < cutoffMs)) },
         ((chatIdsInOrder (db.messages.filter (fun m => m.timestamp < cutoffMs))).foldl
            (evictChat groups summarize (db.messages.filter (fun m => m.timestamp < cutoffMs)))
            (db, [])).2) := by
  unfold summarizeAndCleanupOldMessages
  simp only []
  rw [if_neg h]

/-- **C7**: re-running the eviction pass over the same period leaves the
database unchanged the second time — in particular at most one Summary row
per (chatId, periodStart, periodEnd) key is ever persisted (the duplicate
insert is a no-op, and existing rows are never overwritten: they survive as
a sublist) — while the bulk deletion of stale messages is applied on each
pass whatever the per-chat summarization outcomes were (the statement
quantifies over every `summarize` oracle, including always-failing ones). -/
theorem eviction_idempotent_and_unconditional_delete (groups : Int → Option GroupRow)
    (summarize : Int → List Msg → Except String String) (cutoffMs : Int) (db : EvictionDb)
    (k : Int × Int × Int) :
    (summarizeAndCleanupOldMessages groups summarize cutoffMs
        (summarizeAndCleanupOldMessages groups summarize cutoffMs db).1).1
      = (summarizeAndCleanupOldMessages groups summarize cutoffMs db).1 ∧
    (summarizeAndCleanupOldMessages groups summarize cutoffMs db).1.messages
      = db.messages.filter (fun m => !(m.timestamp < cutoffMs)) ∧
    db.summaries.Sublist
      (summarizeAndCleanupOldMessages groups summarize cutoffMs db).1.summaries ∧
    (countKey k db.summaries = 0 →
      countKey k (summarizeAndCleanupOldMessages groups summarize cutoffMs
          (summarizeAndCleanupOldMessages groups summarize cutoffMs db).1).1.summaries ≤ 1) := by
  by_cases hst : (db.messages.filter (fun m => m.timestamp < cutoffMs)).isEmpty = true
  · have he := summarizeAndCleanup_empty groups summarize cutoffMs db hst
    have hmsg : db.messages.filter (fun m => !(m.timestamp < cutoffMs)) = db.messages :=
      filter_not_of_filter_nil _ _ (by simpa [List.isEmpty_iff] using hst)
    have c1 : (summarizeAndCleanupOldMessages groups summarize cutoffMs
        (summarizeAndCleanupOldMessages groups summarize cutoffMs db).1).1
        = (summarizeAndCleanupOldMessages groups summarize cutoffMs db).1 := by
      rw [he]
      show (summarizeAndCleanupOldMessages groups summarize cutoffMs db).1 = (db, ([] : List Invocation)).1
      rw [he]
    have c2 : (summarizeAndCleanupOldMessages groups summarize cutoffMs db).1.messages
        = db.messages.filter (fun m => !(m.timestamp < cutoffMs)) := by
      rw [he, hmsg]
    have c4 : countKey k db.summaries = 0 →
        countKey k (summarizeAndCleanupOldMessages groups summarize cutoffMs
          (summarizeAndCleanupOldMessages groups summarize cutoffMs db).1).1.summaries ≤ 1 := by
      intro h0
      rw [c1, he]
      simp [h0]
    exact ⟨c1, c2, by rw [he], c4⟩
  · have hne := summarizeAndCleanup_nonempty groups summarize cutoffMs db hst
    obtain ⟨hm, hs, hk⟩ := evict_foldl_state groups summarize
      (db.messages.filter (fun m => m.timestamp < cutoffMs))
      (chatIdsInOrder (db.messages.filter (fun m => m.timestamp < cutoffMs))) (db, [])
    have hmsgs : (summarizeAndCleanupOldMessages groups summarize cutoffMs db).1.messages
        = db.messages.filter (fun m => !(m.timestamp < cutoffMs)) := by
      rw [hne]
      show (_ : EvictionDb).messages = _
      simp only []
      rw [hm]
    have hsums : (summarizeAndCleanupOldMessages groups summarize cutoffMs db).1.summaries
        = ((chatIdsInOrder (db.messages.filter (fun m => m.timestamp < cutoffMs))).foldl
            (evictChat groups summarize (db.messages.filter (fun m => m.timestamp < cutoffMs)))
            (db, [])).1.summaries := by
      rw [hne]
    have hstale2 : ((summarizeAndCleanupOldMessages groups summarize cutoffMs db).1.messages.filter
        (fun m => m.timestamp < cutoffMs)).isEmpty = true := by
      rw [hmsgs, filter_p_filter_not]
      rfl
    have he2 := summarizeAndCleanup_empty groups summarize cutoffMs
      (summarizeAndCleanupOldMessages groups summarize cutoffMs db).1 hstale2
    refine ⟨by rw [he2], hmsgs, ?_, fun h0 => ?_⟩
    · rw [hsums]
      exact hs
    · rw [he2]
      show countKey k (summarizeAndCleanupOldMessages groups summarize cutoffMs db).1.summaries ≤ 1
      rw [hsums]
      have := hk k
      simp only [h0] at this
      simpa using this

theorem eviction_idempotent_and_unconditional_delete_witness :
    countKey (1, 2, 3) ((summarizeAndCleanupOldMessages (fun _ => none)
        (fun _ _ => Except.ok "S") 0 (summarizeAndCleanupOldMessages (fun _ => none)
        (fun _ _ => Except.ok "S") 0 ⟨[], [], []⟩).1).1.summaries) ≤ 1 :=
  (eviction_idempotent_and_unconditional_delete (fun _ => none) (fun _ _ => Except.ok "S")
    0 ⟨[], [], []⟩ (1, 2, 3)).2.2.2 (by decide)

/-- **C1** (amended): every Chunked-Summarizer invocation issued by the
hourly scheduled-summary loop is for a group with a truthy (non-null)
credential reference, with `enabled = true`, and over a non-empty filtered
message list; every invocation issued by the 12-hour eviction loop is for a
group with a truthy credential reference and over a non-empty list of valid
messages — but the eviction loop does not consult `enabled`. -/
theorem scheduler_summarizer_guards :
    (∀ (w : SchedWorld) (inv : Invocation), inv ∈ checkAndRunScheduledSummaries w →
      jsStrTruthy inv.apiKey = true ∧ inv.enabled = true ∧ inv.messages ≠ []) ∧
    (∀ (groups : Int → Option GroupRow) (summarize : Int → List Msg → Except String String)
        (cutoffMs : Int) (db : EvictionDb) (inv : Invocation),
      inv ∈ (summarizeAndCleanupOldMessages groups summarize cutoffMs db).2 →
      jsStrTruthy inv.apiKey = true ∧ inv.messages ≠ []) := by
  constructor
  · intro w inv h
    obtain ⟨s, _, hs⟩ := checkAndRun_mem w inv h
    obtain ⟨group, hg, hkey, hen, hgen⟩ := mem_schedOne w s inv hs
    obtain ⟨group2, hg2, hak, hae, hkey2, hmsg⟩ :=
      mem_generateScheduledSummary w s.telegramChatId s inv hgen
    rw [hg] at hg2
    injection hg2 with hg3
    subst hg3
    exact ⟨by rw [hak]; exact hkey2, by rw [hae]; exact hen, hmsg⟩
  · intro groups summarize cutoffMs db inv h
    by_cases hst : (db.messages.filter (fun m => m.timestamp < cutoffMs)).isEmpty = true
    · rw [summarizeAndCleanup_empty groups summarize cutoffMs db hst] at h
      simp at h
    · rw [summarizeAndCleanup_nonempty groups summarize cutoffMs db hst] at h
      exact evict_foldl_invs groups summarize _ _ (db, [])
        (by intro inv2 h2; simp at h2) inv h

theorem scheduler_summarizer_guards_witness :
    jsStrTruthy (Invocation.mk 1 (some "k") true
      [⟨some "u", none, "hello", 0⟩] : Invocation).apiKey = true ∧
    (Invocation.mk 1 (some "k") true [⟨some "u", none, "hello", 0⟩] : Invocation).enabled = true ∧
    (Invocation.mk 1 (some "k") true [⟨some "u", none, "hello", 0⟩] : Invocation).messages ≠ [] :=
  scheduler_summarizer_guards.1
    ⟨fun c => if c = 1 then some ⟨some "k", true⟩ else none,
     [⟨1, none, none, false, false, none, true, none, some "09:00:00", none⟩],
     fun _ _ _ => [⟨1, 5, some 7, some "u", none, some "hello", 0⟩],
     0, 9, 0, 1⟩
    (Invocation.mk 1 (some "k") true [⟨some "u", none, "hello", 0⟩])
    (by decide)

/-- **C1** (counterexample): the eviction-with-summarization path invokes
the Chunked Summarizer for a group whose configuration has `enabled = false`
(the code checks only the credential reference and the presence of valid
messages on this path), so the claimed invariant fails for the 12-hour loop. -/
theorem scheduler_summarizer_guards_counterexample :
    (summarizeAndCleanupOldMessages
        (fun c => if c = 1 then some ⟨some "k", false⟩ else none)
        (fun _ _ => Except.ok "S") 100
        ⟨[⟨1, 10, some 5, some "u", none, some "hi", 0⟩], [], []⟩).2
      = [⟨1, some "k", false, [⟨some "u", none, "hi", 0⟩]⟩] := by decide

/-! ### Rate-limiter lemmas -/

theorem handleTLDRBody_rl (repo : CmdRepo) (rl : RateLimitMap) (req : TLDRRequest) :
    (handleTLDRBody repo rl req).2.2 = rl := by
  unfold handleTLDRBody
  repeat' (first | rfl | split | simp only [])

theorem rlGet_rlSet (m : RateLimitMap) (k : String) (v : Int) :
    rlGet (rlSet m k v) k = some v := by
  unfold rlGet rlSet
  simp [List.find?_cons_of_pos]

theorem handleTLDR_sets_timestamp (repo : CmdRepo) (rl0 : RateLimitMap) (req : TLDRRequest)
    (hgrp : req.chatIsGroup = true)
    (h0 : rlGet rl0 (rateLimitKey req.chatId req.fromId) = none) :
    (handleTLDR repo rl0 req).2.2
      = rlSet rl0 (rateLimitKey req.chatId req.fromId) req.now := by
  unfold handleTLDR
  simp only [hgrp, Bool.not_true, Bool.false_eq_true, if_false]
  rw [h0]
  exact handleTLDRBody_rl repo _ req

/-- **C9**: two interactive `/tldr` requests from the same (chat, caller)
pair less than 30 seconds apart: the second is rejected immediately with a
"wait N seconds" response (N at least 1), issues no repository call at all,
and leaves the rate-limit state unchanged (rejected, not queued). -/
theorem handleTLDR_rate_limited_second_request (repo : CmdRepo) (rl0 : RateLimitMap)
    (chatId : Int) (fromId : Option Int) (replyTo1 replyTo2 : Option Int)
    (args1 args2 : String) (t1 t2 : Int)
    (h0 : rlGet rl0 (rateLimitKey chatId fromId) = none)
    (h1 : 0 < t1) (h2 : t1 ≤ t2) (h3 : t2 - t1 < RATE_LIMIT_SECONDS * 1000) :
    handleTLDR repo
        (handleTLDR repo rl0 ⟨true, chatId, fromId, replyTo1, args1, t1⟩).2.2
        ⟨true, chatId, fromId, replyTo2, args2, t2⟩
      = (TLDROutcome.rateLimited (ceilDiv1000 (RATE_LIMIT_SECONDS * 1000 - (t2 - t1))),
         [],
         (handleTLDR repo rl0 ⟨true, chatId, fromId, replyTo1, args1, t1⟩).2.2) ∧
    1 ≤ ceilDiv1000 (RATE_LIMIT_SECONDS * 1000 - (t2 - t1)) := by
  have hset := handleTLDR_sets_timestamp repo rl0 ⟨true, chatId, fromId, replyTo1, args1, t1⟩
    rfl h0
  constructor
  · rw [hset]
    unfold handleTLDR
    simp only [Bool.not_true, Bool.false_eq_true, if_false]
    rw [rlGet_rlSet rl0 (rateLimitKey chatId fromId) t1]
    have hcond : (t1 != 0 && decide (t2 - t1 < RATE_LIMIT_SECONDS * 1000)) = true := by
      simp only [bne_iff_ne, ne_eq, Bool.and_eq_true, decide_eq_true_eq]
      exact ⟨by omega, h3⟩
    split
    next lastCommandTime heq =>
      injection heq with hl
      subst hl
      rw [if_pos hcond]
    next heq => exact Option.noConfusion heq
  · unfold RATE_LIMIT_SECONDS at h3
    unfold ceilDiv1000 RATE_LIMIT_SECONDS
    omega

theorem handleTLDR_rate_limited_second_request_witness :
    handleTLDR ⟨fun _ => none, fun _ _ => [], fun _ _ _ => []⟩
        (handleTLDR ⟨fun _ => none, fun _ _ => [], fun _ _ _ => []⟩ ⟨[]⟩
          ⟨true, 7, some 42, none, "", 1000⟩).2.2
        ⟨true, 7, some 42, none, "", 2000⟩
      = (TLDROutcome.rateLimited (ceilDiv1000 (RATE_LIMIT_SECONDS * 1000 - (2000 - 1000))),
         [],
         (handleTLDR ⟨fun _ => none, fun _ _ => [], fun _ _ _ => []⟩ ⟨[]⟩
           ⟨true, 7, some 42, none, "", 1000⟩).2.2) :=
  (handleTLDR_rate_limited_second_request ⟨fun _ => none, fun _ _ => [], fun _ _ _ => []⟩
    ⟨[]⟩ 7 (some 42) none none "" "" 1000 2000 (by decide) (by decide) (by decide)
    (by decide)).1

/-! ### Cache lemmas -/

theorem insertMessage_mem (row : CachedRow) (rows : List CachedRow) :
    ∀ r ∈ insertMessage row rows, r ∈ rows ∨ r.content = row.content := by
  intro r h
  unfold insertMessage at h
  split at h
  · rcases List.mem_map.mp h with ⟨r0, hr0, heq⟩
    by_cases hmatch : (r0.telegramChatId == row.telegramChatId
        && r0.messageId == row.messageId) = true
    · rw [if_pos hmatch] at heq
      subst heq
      exact Or.inr rfl
    · rw [if_neg hmatch] at heq
      subst heq
      exact Or.inl hr0
  · rcases List.mem_append.mp h with h2 | h2
    · exact Or.inl h2
    · simp only [List.mem_singleton] at h2
      subst h2
      exact Or.inr rfl

theorem insertMessage_hasKey (row : CachedRow) (rows : List CachedRow) (cid mid : Int)
    (hrow : ¬(row.telegramChatId = cid ∧ row.messageId = mid))
    (h : hasKey rows cid mid = false) :
    hasKey (insertMessage row rows) cid mid = false := by
  unfold hasKey at h ⊢
  unfold insertMessage
  split
  · rw [List.any_eq_false] at h ⊢
    intro r hr
    rcases List.mem_map.mp hr with ⟨r0, hr0, heq⟩
    have h0 := h r0 hr0
    intro hcontra
    apply h0
    rw [← heq] at hcontra
    revert hcontra
    split <;> exact id
  · simp only [List.any_append, h, Bool.false_or, List.any_cons, List.any_nil, Bool.or_false,
      Bool.and_eq_true, beq_iff_eq]
    rw [Bool.eq_false_iff]
    intro hc
    rw [Bool.and_eq_true, beq_iff_eq, beq_iff_eq] at hc
    exact hrow hc

theorem processMessageForCache_excluded (groups : Int → Option GroupRow)
    (settingsOf : Int → GroupSettings) (cache : List CachedRow) (m : IncomingMsg)
    (hex : cacheExcluded (settingsOf m.chatId) m = true) :
    processMessageForCache groups settingsOf cache m = cache := by
  unfold processMessageForCache
  split
  · rfl
  · split
    · rfl
    · simp only []
      unfold cacheExcluded at hex
      by_cases h1 : ((settingsOf m.chatId).excludeCommands && startsWithSlash m.text) = true
      · rw [if_pos h1]
      · rw [if_neg h1]
        by_cases h2 : ((settingsOf m.chatId).excludeBotMessages && m.fromIsBot) = true
        · rw [if_pos h2]
        · rw [if_neg h2]
          by_cases h3 : (numTruthy m.fromId && (settingsOf m.chatId).excludedUserIds.isSome &&
              ((settingsOf m.chatId).excludedUserIds.getD []).contains (m.fromId.getD 0)) = true
          · rw [if_pos h3]
          · exfalso
            rw [Bool.or_eq_true, Bool.or_eq_true] at hex
            rcases hex with (hx | hx) | hx
            · exact h1 hx
            · exact h2 hx
            · exact h3 hx

theorem processMessageForCache_cases (groups : Int → Option GroupRow)
    (settingsOf : Int → GroupSettings) (cache : List CachedRow) (m : IncomingMsg) :
    processMessageForCache groups settingsOf cache m = cache ∨
    ∃ content : String, processMessageForCache groups settingsOf cache m
        = insertMessage ⟨m.chatId, m.messageId, m.fromId, m.fromUsername,
            m.fromFirstName, content⟩ cache ∧
      content.data.length ≤ 5000 := by
  unfold processMessageForCache
  split
  · exact Or.inl rfl
  · split
    · exact Or.inl rfl
    · simp only []
      split
      · exact Or.inl rfl
      · split
        · exact Or.inl rfl
        · split
          · exact Or.inl rfl
          · split
            · exact Or.inl rfl
            · refine Or.inr ⟨jsTake (jsOrStr m.text (jsOrStr m.caption "")) 5000, rfl, ?_⟩
              unfold jsTake
              simp only [List.length_take]
              exact Nat.min_le_left _ _

theorem cacheStep_hasKey (w : CacheWorld) (e : CacheEvent) (cid mid : Int)
    (h : hasKey w.cache cid mid = false)
    (hdrop : (match e with
      | CacheEvent.deliver m =>
        !(m.chatId == cid && m.messageId == mid) || cacheExcluded (w.settings m.chatId) m
      | CacheEvent.setSettings _ _ => true) = true) :
    hasKey (cacheStep w e).cache cid mid = false := by
  cases e with
  | setSettings c s => exact h
  | deliver m =>
    show hasKey (processMessageForCache w.groups w.settings w.cache m) cid mid = false
    by_cases hkey : (m.chatId == cid && m.messageId == mid) = true
    · have hex : cacheExcluded (w.settings m.chatId) m = true := by
        simpa [hkey] using hdrop
      rw [processMessageForCache_excluded w.groups w.settings w.cache m hex]
      exact h
    · rcases processMessageForCache_cases w.groups w.settings w.cache m with
        hc | ⟨content, hc, _⟩
      · rw [hc]; exact h
      · rw [hc]
        refine insertMessage_hasKey _ _ cid mid ?_ h
        rintro ⟨hcid, hmid⟩
        exact hkey (by
          simp only [Bool.and_eq_true, beq_iff_eq]
          exact ⟨hcid, hmid⟩)

/-- **C10**: the exclusion filters apply at cache-insertion time — an
incoming message matching an active exclusion (command with
`excludeCommands`, bot sender with `excludeBotMessages`, or an excluded
sender id) leaves the cache untouched; cached rows are truncated to at most
5000 characters; and a message key whose every delivery was excluded by the
settings in force at delivery time never appears in any later retrieval,
regardless of intervening settings changes (settings events do not touch the
cache, so turning a filter off does not restore dropped messages). -/
theorem processMessageForCache_exclusion_invariants :
    (∀ (groups : Int → Option GroupRow) (settingsOf : Int → GroupSettings)
        (cache : List CachedRow) (m : IncomingMsg),
      cacheExcluded (settingsOf m.chatId) m = true →
      processMessageForCache groups settingsOf cache m = cache) ∧
    (∀ (groups : Int → Option GroupRow) (settingsOf : Int → GroupSettings)
        (cache : List CachedRow) (m : IncomingMsg),
      (∀ r ∈ cache, r.content.data.length ≤ 5000) →
      ∀ r ∈ processMessageForCache groups settingsOf cache m, r.content.data.length ≤ 5000) ∧
    (∀ (w : CacheWorld) (events : List CacheEvent) (cid mid : Int),
      hasKey w.cache cid mid = false →
      droppedAll cid mid w events = true →
      hasKey (cacheRun w events).cache cid mid = false) := by
  refine ⟨processMessageForCache_excluded, ?_, ?_⟩
  · intro groups settingsOf cache m hb r hr
    rcases processMessageForCache_cases groups settingsOf cache m with hc | ⟨content, hc, hlen⟩
    · rw [hc] at hr
      exact hb r hr
    · rw [hc] at hr
      rcases insertMessage_mem _ cache r hr with hmem | hcont
      · exact hb r hmem
      · rw [hcont]
        exact hlen
  · intro w events
    induction events generalizing w with
    | nil => exact fun cid mid h _ => h
    | cons e rest ih =>
      intro cid mid h hdrop
      unfold droppedAll at hdrop
      rw [Bool.and_eq_true] at hdrop
      exact ih (cacheStep w e) cid mid (cacheStep_hasKey w e cid mid h hdrop.1) hdrop.2

theorem processMessageForCache_exclusion_invariants_witness :
    processMessageForCache (fun _ => some ⟨some "k", true⟩)
        (fun _ => ⟨1, none, none, false, true, none, false, none, none, none⟩)
        [] ⟨true, 1, 2, some 3, false, some "u", none, some "/start", none⟩
      = [] ∧
    hasKey (cacheRun
        ⟨fun _ => some ⟨some "k", true⟩,
         fun _ => ⟨1, none, none, false, true, none, false, none, none, none⟩, []⟩
        [CacheEvent.deliver ⟨true, 1, 2, some 3, false, some "u", none, some "/start", none⟩,
         CacheEvent.setSettings 1 ⟨1, none, none, false, false, none, false, none, none, none⟩]).cache
      1 2 = false :=
  ⟨processMessageForCache_exclusion_invariants.1 (fun _ => some ⟨some "k", true⟩)
      (fun _ => ⟨1, none, none, false, true, none, false, none, none, none⟩)
      [] ⟨true, 1, 2, some 3, false, some "u", none, some "/start", none⟩ (by decide),
   processMessageForCache_exclusion_invariants.2.2
      ⟨fun _ => some ⟨some "k", true⟩,
       fun _ => ⟨1, none, none, false, true, none, false, none, none, none⟩, []⟩
      [CacheEvent.deliver ⟨true, 1, 2, some 3, false, some "u", none, some "/start", none⟩,
       CacheEvent.setSettings 1 ⟨1, none, none, false, false, none, false, none, none, none⟩]
      1 2 (by decide) (by decide)⟩
